import Mathlib

/-!
# olivere/webserver: graceful shutdown of `main.go`

A step model of the three tasks of `main`:

* the main path (lines 16-76),
* the serve goroutine `errCh <- srv.Serve(lis)` (lines 43-45),
* the signal watcher goroutine (lines 47-66),

communicating through the buffered channel `errCh` (capacity 1) and the
channel `idleConnsClosed`, which is only ever closed.

Every task step is one label of `exec`.  Sequences of statements that neither
block nor touch the two channels are taken in one step and leave their events,
in source order, in the trace.  The calls into the Go libraries (`net.Listen`,
`srv.Serve`, `srv.Shutdown`, `context.WithTimeout`, signal delivery) are inputs
of the model: a parameter or the value carried by a label.
-/

namespace Webserver

/-! ## Data -/

/-- Values of `os.Signal` as delivered by `signal.Notify` (`syscall.Signal` numbers). -/
abbrev Signal := Nat

def SIGHUP : Signal := 1
def SIGINT : Signal := 2
def SIGTERM : Signal := 15
def SIGUSR1 : Signal := 10

/-- Line 51: the signals `signal.Notify(ch, syscall.SIGINT, syscall.SIGTERM, syscall.SIGHUP)`
relays to `ch`.  No other signal is ever sent on `ch`. -/
def subscribed : List Signal := [SIGINT, SIGTERM, SIGHUP]

/-- Non-nil values of Go's `error` that the program can observe.
`ErrServerClosed` is `http.ErrServerClosed`, `DeadlineExceeded` is
`context.DeadlineExceeded`, `other` stands for every other error value. -/
inductive Err
  | ErrServerClosed
  | DeadlineExceeded
  | other (code : Nat)
  deriving DecidableEq, Repr

/-- A Go `error` value: `none` is `nil`. -/
abbrev GoError := Option Err

/-- Value of `time.Duration` and of instants, in nanoseconds. -/
abbrev Duration := Int

def Second : Duration := 1000000000

/-- The two command line flags as given (`none`: flag absent). -/
structure Flags where
  addr : Option String
  ttl : Option Duration
  deriving DecidableEq, Repr

/-- The values of `*addr` and `*ttl` after `flag.Parse()`. -/
structure Config where
  addr : String
  ttl : Duration
  deriving DecidableEq, Repr

/-- Lines 17-21: `flag.String("addr", ":8080", ..)`, `flag.Duration("ttl", 60*time.Second, ..)`. -/
def flagParse (f : Flags) : Config :=
  { addr := f.addr.getD ":8080", ttl := f.ttl.getD (60 * Second) }

/-- The deadline of `context.WithTimeout(context.Background(), d)` called at instant `t`:
`time.Now().Add(d)`. -/
def WithTimeout (t : Int) (d : Duration) : Int := t + d

/-- The two goroutines that send on `errCh`. -/
inductive Sender
  | serve
  | watcher
  deriving DecidableEq, Repr

/-- Observable actions of a run, in the order in which they happen. -/
inductive Event
  | listen (addr : String)
  | fatal (e : Err)
  | handleFunc
  | logStarting (addr : String)
  | makeIdleConnsClosed
  | makeErrCh
  | goServe
  | goWatcher
  | notify
  | recvSignal (sig : Signal) (t : Int)
  | logShutdown (sig : Signal)
  | logSignal (sig : Signal)
  | shutdownCall (deadline : Int)
  | shutdownReturn (e : GoError)
  | serveReturn (e : Err)
  | sendErrCh (who : Sender) (e : GoError)
  | cancel
  | closeIdleConnsClosed
  | recvErrCh (e : GoError)
  | logExitingErr (e : GoError)
  | recvIdleConnsClosed
  | logExiting
  deriving DecidableEq, Repr

/-- Program points of the main path. -/
inductive MainPc
  | start
  | fatal
  | recvErrCh
  | waitIdleConnsClosed
  | exited
  deriving DecidableEq, Repr

/-- Program points of the serve goroutine (line 44). -/
inductive ServePc
  | notStarted
  | serving
  | sending (e : Err)
  | done
  deriving DecidableEq, Repr

/-- Program points of the signal watcher goroutine (lines 47-66). -/
inductive WatcherPc
  | notStarted
  | spawned
  | loop
  | inShutdown (deadline : Int)
  | sending (e : GoError)
  | returning
  | done
  deriving DecidableEq, Repr

/-- The state of the process: the clock, the program point of each task, the contents of
the buffer of `errCh`, whether `idleConnsClosed` is closed, whether `srv.Shutdown` was
called, the number of handlers in flight, and the events so far. -/
structure State where
  now : Int
  mainPc : MainPc
  servePc : ServePc
  watcherPc : WatcherPc
  errCh : List GoError
  idleConnsClosed : Bool
  inShutdown : Bool
  inFlight : Nat
  trace : List Event
  deriving DecidableEq, Repr

/-- The process at instant `t0`, before `main` runs. -/
def init (t0 : Int) : State :=
  { now := t0, mainPc := .start, servePc := .notStarted, watcherPc := .notStarted,
    errCh := [], idleConnsClosed := false, inShutdown := false, inFlight := 0, trace := [] }

/-- Line 41: `make(chan error, 1)`. -/
def errChCap : Nat := 1

/-- Line 69: `err != nil && err != http.ErrServerClosed`. -/
def shouldWarn (e : GoError) : Bool :=
  e != none && e != some Err.ErrServerClosed

/-- Line 54: `case syscall.SIGINT, syscall.SIGTERM`. -/
def isTerm (sig : Signal) : Bool :=
  sig == SIGINT || sig == SIGTERM

/-- The goroutines run while `main` has neither returned nor called `log.Fatal`. -/
def alive (s : State) : Bool :=
  s.mainPc == .recvErrCh || s.mainPc == .waitIdleConnsClosed

/-- The choices of a run: which task moves, and what the environment delivers. -/
inductive Label
  | tick (d : Nat)
  | main
  | accept
  | handlerDone
  | serveReturn (e : Err)
  | serveSend
  | watcherInit
  | signal (sig : Signal)
  | shutdownReturn (e : GoError)
  | watcherSend
  | watcherReturn
  deriving DecidableEq, Repr

/-- The next step of the main path (lines 16-76): startup up to the two `go` statements
or `log.Fatal` (lines 17-66), the receive from `errCh` with its warning (lines 69-71),
the receive from `idleConnsClosed` with the final log line (lines 73-75). -/
def mainStep (netListen : String → GoError) (flags : Flags) (s : State) : Option State :=
  match s.mainPc with
  | .start =>
    let cfg := flagParse flags
    match netListen cfg.addr with
    | some e =>
      some { s with mainPc := .fatal, trace := s.trace ++ [.listen cfg.addr, .fatal e] }
    | none =>
      some { s with
        mainPc := .recvErrCh, servePc := .serving, watcherPc := .spawned,
        trace := s.trace ++ [.listen cfg.addr, .handleFunc, .logStarting cfg.addr,
          .makeIdleConnsClosed, .makeErrCh, .goServe, .goWatcher] }
  | .recvErrCh =>
    match s.errCh with
    | [] => none
    | e :: rest =>
      some { s with
        mainPc := .waitIdleConnsClosed, errCh := rest,
        trace := s.trace ++ (.recvErrCh e :: if shouldWarn e then [.logExitingErr e] else []) }
  | .waitIdleConnsClosed =>
    if s.idleConnsClosed then
      some { s with mainPc := .exited, trace := s.trace ++ [.recvIdleConnsClosed, .logExiting] }
    else none
  | .fatal => none
  | .exited => none

/-- The serve goroutine (line 44) and the connections `srv.Serve` dispatches.
`srv.Serve` is `net/http`: it always returns a non-nil error, `http.ErrServerClosed`
once `srv.Shutdown` was called and the error of the listener otherwise.  The send of
line 44 waits for room in the buffer of `errCh`. -/
def serveStep (s : State) : Label → Option State
  | .accept =>
    if s.servePc = .serving ∧ s.inShutdown = false then
      some { s with inFlight := s.inFlight + 1 }
    else none
  | .handlerDone =>
    if 0 < s.inFlight then some { s with inFlight := s.inFlight - 1 } else none
  | .serveReturn e =>
    if s.servePc = .serving ∧ (s.inShutdown = true → e = .ErrServerClosed) then
      some { s with servePc := .sending e, trace := s.trace ++ [.serveReturn e] }
    else none
  | .serveSend =>
    match s.servePc with
    | .sending e =>
      if s.errCh.length < errChCap then
        some { s with servePc := .done, errCh := s.errCh ++ [some e],
                      trace := s.trace ++ [.sendErrCh .serve (some e)] }
      else none
    | _ => none
  | _ => none

/-- The signal watcher goroutine (lines 47-66).  A label `signal sig` is the receive
`<-ch` of line 53 together with the case it selects, up to the call of `srv.Shutdown`
in line 58; `ch` yields only the signals subscribed in line 51, so the `default` case of
lines 62-63 is written out but never selected, and a signal outside the subscription
is no step of the watcher (what the Go runtime does with it is not part of `main.go`);
the send of line 58 waits for room in the buffer of `errCh`; the `return`
of line 59 runs the deferred `cancel()` and `close(idleConnsClosed)`.
`srv.Shutdown(ctx)` is `net/http`: it returns the error of closing the listeners when
no handler is in flight, and `ctx.Err()`, which is `context.DeadlineExceeded`, when the
deadline of `ctx` has passed with a handler still in flight. -/
def watcherStep (flags : Flags) (s : State) : Label → Option State
  | .watcherInit =>
    match s.watcherPc with
    | .spawned => some { s with watcherPc := .loop, trace := s.trace ++ [.notify] }
    | _ => none
  | .signal sig =>
    match s.watcherPc with
    | .loop =>
      if sig ∈ subscribed then
        if sig = SIGINT ∨ sig = SIGTERM then
          let deadline := WithTimeout s.now (flagParse flags).ttl
          some { s with
            watcherPc := .inShutdown deadline, inShutdown := true,
            trace := s.trace ++
              [.recvSignal sig s.now, .logShutdown sig, .shutdownCall deadline] }
        else if sig = SIGHUP then
          some { s with trace := s.trace ++ [.recvSignal sig s.now, .logSignal sig] }
        else
          some { s with trace := s.trace ++ [.recvSignal sig s.now, .logSignal sig] }
      else none
    | _ => none
  | .shutdownReturn e =>
    match s.watcherPc with
    | .inShutdown deadline =>
      if s.inFlight = 0 ∨ (deadline ≤ s.now ∧ e = some .DeadlineExceeded) then
        some { s with watcherPc := .sending e, trace := s.trace ++ [.shutdownReturn e] }
      else none
    | _ => none
  | .watcherSend =>
    match s.watcherPc with
    | .sending e =>
      if s.errCh.length < errChCap then
        some { s with watcherPc := .returning, errCh := s.errCh ++ [e],
                      trace := s.trace ++ [.sendErrCh .watcher e] }
      else none
    | _ => none
  | .watcherReturn =>
    match s.watcherPc with
    | .returning =>
      some { s with watcherPc := .done, idleConnsClosed := true,
                    trace := s.trace ++ [.cancel, .closeIdleConnsClosed] }
    | _ => none
  | _ => none

/-- One step of the process; `none` when the labelled task is blocked or not at that point. -/
def exec (netListen : String → GoError) (flags : Flags) (s : State) (l : Label) : Option State :=
  match l with
  | .main => mainStep netListen flags s
  | .tick d => if alive s then some { s with now := s.now + d } else none
  | .accept | .handlerDone | .serveReturn _ | .serveSend =>
    if alive s then serveStep s l else none
  | .watcherInit | .signal _ | .shutdownReturn _ | .watcherSend | .watcherReturn =>
    if alive s then watcherStep flags s l else none

/-- A label that cannot be taken leaves the state as it is. -/
def next (netListen : String → GoError) (flags : Flags) (s : State) (l : Label) : State :=
  (exec netListen flags s l).getD s

/-- The state after the schedule `ls`, from process start at instant `t0`. -/
def run (netListen : String → GoError) (flags : Flags) (t0 : Int) (ls : List Label) : State :=
  ls.foldl (next netListen flags) (init t0)

/-! ## Observations on traces -/

/-- The signals received from `ch`, in order. -/
def received (tr : List Event) : List Signal :=
  tr.filterMap fun ev => match ev with
    | .recvSignal sig _ => some sig
    | _ => none

/-- The signals logged by lines 61 and 63, in order. -/
def logged (tr : List Event) : List Signal :=
  tr.filterMap fun ev => match ev with
    | .logSignal sig => some sig
    | _ => none

def isShutdownCall : Event → Bool
  | .shutdownCall _ => true
  | _ => false

def isSendErrCh : Event → Bool
  | .sendErrCh _ _ => true
  | _ => false

def isSendBy (w : Sender) : Event → Bool
  | .sendErrCh v _ => v == w
  | _ => false

def isRecvErrCh : Event → Bool
  | .recvErrCh _ => true
  | _ => false

def isClose : Event → Bool
  | .closeIdleConnsClosed => true
  | _ => false

def isListen : Event → Bool
  | .listen _ => true
  | _ => false

/-- What the main path has received from `errCh`, by program point. -/
def mainReceived : MainPc → Nat
  | .waitIdleConnsClosed => 1
  | .exited => 1
  | _ => 0

/-- What the serve goroutine has sent on `errCh`, by program point. -/
def serveSent : ServePc → Nat
  | .done => 1
  | _ => 0

/-- What the watcher has sent on `errCh`, by program point. -/
def watcherSent : WatcherPc → Nat
  | .returning => 1
  | .done => 1
  | _ => 0

/-- Whether the watcher has called `srv.Shutdown`, by program point. -/
def watcherCalled : WatcherPc → Nat
  | .inShutdown _ => 1
  | .sending _ => 1
  | .returning => 1
  | .done => 1
  | _ => 0

/-- Whether the watcher has closed `idleConnsClosed`, by program point. -/
def watcherClosed : WatcherPc → Nat
  | .done => 1
  | _ => 0

def isShutdownReturn : Event → Bool
  | .shutdownReturn _ => true
  | _ => false

/-- Whether `srv.Shutdown` has returned, by program point of the watcher. -/
def watcherReturned : WatcherPc → Nat
  | .sending _ => 1
  | .returning => 1
  | .done => 1
  | _ => 0

/-- The events of a shutdown in the order of lines 53-59 and 73-75. -/
def chain (sig : Signal) (t d : Int) (e : GoError) : List Event :=
  [.recvSignal sig t, .logShutdown sig, .shutdownCall d, .shutdownReturn e,
   .sendErrCh .watcher e, .cancel, .closeIdleConnsClosed, .recvIdleConnsClosed, .logExiting]

/-- How many events of `chain` have happened, by program point. -/
def progress (s : State) : Nat :=
  match s.watcherPc with
  | .inShutdown _ => 3
  | .sending _ => 4
  | .returning => 5
  | .done => if s.mainPc = .exited then 9 else 7
  | _ => 0

/-- The shutdown events happen in the order of `chain`, and the watcher sends what
`srv.Shutdown` returned. -/
def Ordered (fl : Flags) (t0 : Int) (s : State) : Prop :=
  ∃ sig t d e, isTerm sig = true ∧ d = WithTimeout t (flagParse fl).ttl ∧ t0 ≤ t ∧
    List.Sublist ((chain sig t d e).take (progress s)) s.trace ∧
    (∀ d', Event.shutdownCall d' ∈ s.trace → d' = d) ∧
    (∀ e', Event.shutdownReturn e' ∈ s.trace → e' = e) ∧
    (∀ e', Event.sendErrCh .watcher e' ∈ s.trace → e' = e) ∧
    (∀ d', s.watcherPc = .inShutdown d' → d' = d) ∧
    (∀ e', s.watcherPc = .sending e' → e' = e)

/-- How far the watcher has come, by program point. -/
def stage : WatcherPc → Nat
  | .notStarted => 0
  | .spawned => 1
  | .loop => 2
  | .inShutdown _ => 3
  | .sending _ => 4
  | .returning => 5
  | .done => 6

/-- The steps the watcher and the main path still take before `idleConnsClosed` is
closed and `errCh` has been read. -/
def rank (s : State) : Nat :=
  (match s.watcherPc with
    | .sending _ => 2
    | .returning => 1
    | _ => 0) + (if s.mainPc = .recvErrCh then 1 else 0)

/-! ## Invariants of every run -/

/-- The facts about program points and channels that hold in every reachable state. -/
structure Inv (netListen : String → GoError) (flags : Flags) (t0 : Int) (s : State) : Prop where
  start : s.mainPc = .start → s.servePc = .notStarted ∧ s.watcherPc = .notStarted ∧
    s.errCh = [] ∧ s.idleConnsClosed = false ∧ s.trace = []
  fatal : s.mainPc = .fatal → s.servePc = .notStarted ∧ s.watcherPc = .notStarted ∧
    s.errCh = [] ∧ s.idleConnsClosed = false ∧
    ∃ e, netListen (flagParse flags).addr = some e ∧
      s.trace = [.listen (flagParse flags).addr, .fatal e]
  bound : alive s = true ∨ s.mainPc = .exited → netListen (flagParse flags).addr = none
  closed : s.idleConnsClosed = true ↔ s.watcherPc = .done
  exited : s.mainPc = .exited → s.idleConnsClosed = true
  chan : s.errCh.length + mainReceived s.mainPc = serveSent s.servePc + watcherSent s.watcherPc
  cap : s.errCh.length ≤ errChCap
  clock : t0 ≤ s.now

/-- Everything that holds in every reachable state. -/
structure Good (nl : String → GoError) (fl : Flags) (t0 : Int) (s : State) : Prop where
  inv : Inv nl fl t0 s
  cntServe : s.trace.countP (isSendBy .serve) = serveSent s.servePc
  cntWatcher : s.trace.countP (isSendBy .watcher) = watcherSent s.watcherPc
  cntRecv : s.trace.countP isRecvErrCh = mainReceived s.mainPc
  cntClose : s.trace.countP isClose = watcherClosed s.watcherPc
  cntCall : s.trace.countP isShutdownCall = watcherCalled s.watcherPc
  cntReturn : s.trace.countP isShutdownReturn = watcherReturned s.watcherPc
  cntSend : s.trace.countP isSendErrCh = serveSent s.servePc + watcherSent s.watcherPc
  before : watcherCalled s.watcherPc = 0 →
    (∀ x ∈ received s.trace, isTerm x = false) ∧ logged s.trace = received s.trace
  after : watcherCalled s.watcherPc = 1 →
    ∃ pre sig, received s.trace = pre ++ [sig] ∧ isTerm sig = true ∧
      (∀ x ∈ pre, isTerm x = false) ∧ logged s.trace = pre
  warn : ∀ x, Event.logExitingErr x ∈ s.trace ↔
    (Event.recvErrCh x ∈ s.trace ∧ shouldWarn x = true)
  logExit : Event.logExiting ∈ s.trace ↔ s.mainPc = .exited
  call : ∀ d, Event.shutdownCall d ∈ s.trace → ∃ sig t, isTerm sig = true ∧
    d = WithTimeout t (flagParse fl).ttl ∧ t0 ≤ t ∧ t ≤ s.now ∧
    [Event.recvSignal sig t, Event.logShutdown sig, Event.shutdownCall d] <:+: s.trace
  ordered : Ordered fl t0 s
  recvSub : ∀ x ∈ received s.trace, x ∈ subscribed

/-- The transitions of `exec`, one constructor for each way a label can be taken. -/
inductive Step (nl : String → GoError) (fl : Flags) : State → Label → State → Prop
  | tick (s : State) (d : Nat) (ha : alive s = true) :
      Step nl fl s (.tick d) { s with now := s.now + d }
  | listenFail (s : State) (e : Err) (hpc : s.mainPc = .start)
      (hl : nl (flagParse fl).addr = some e) :
      Step nl fl s .main { s with
        mainPc := .fatal,
        trace := s.trace ++ [.listen (flagParse fl).addr, .fatal e] }
  | startup (s : State) (hpc : s.mainPc = .start) (hl : nl (flagParse fl).addr = none) :
      Step nl fl s .main { s with
        mainPc := .recvErrCh, servePc := .serving, watcherPc := .spawned,
        trace := s.trace ++ [.listen (flagParse fl).addr, .handleFunc,
          .logStarting (flagParse fl).addr, .makeIdleConnsClosed, .makeErrCh, .goServe,
          .goWatcher] }
  | recvErr (s : State) (e : GoError) (rest : List GoError) (hpc : s.mainPc = .recvErrCh)
      (hc : s.errCh = e :: rest) :
      Step nl fl s .main { s with
        mainPc := .waitIdleConnsClosed, errCh := rest,
        trace := s.trace ++ (.recvErrCh e :: if shouldWarn e then [.logExitingErr e] else []) }
  | exit (s : State) (hpc : s.mainPc = .waitIdleConnsClosed) (hc : s.idleConnsClosed = true) :
      Step nl fl s .main { s with
        mainPc := .exited,
        trace := s.trace ++ [.recvIdleConnsClosed, .logExiting] }
  | accept (s : State) (ha : alive s = true) (hpc : s.servePc = .serving)
      (hs : s.inShutdown = false) :
      Step nl fl s .accept { s with inFlight := s.inFlight + 1 }
  | handlerDone (s : State) (ha : alive s = true) (hf : 0 < s.inFlight) :
      Step nl fl s .handlerDone { s with inFlight := s.inFlight - 1 }
  | serveReturn (s : State) (e : Err) (ha : alive s = true) (hpc : s.servePc = .serving)
      (hs : s.inShutdown = true → e = .ErrServerClosed) :
      Step nl fl s (.serveReturn e)
        { s with servePc := .sending e, trace := s.trace ++ [.serveReturn e] }
  | serveSend (s : State) (e : Err) (ha : alive s = true) (hpc : s.servePc = .sending e)
      (hc : s.errCh.length < errChCap) :
      Step nl fl s .serveSend { s with
        servePc := .done, errCh := s.errCh ++ [some e],
        trace := s.trace ++ [.sendErrCh .serve (some e)] }
  | watcherInit (s : State) (ha : alive s = true) (hpc : s.watcherPc = .spawned) :
      Step nl fl s .watcherInit { s with watcherPc := .loop, trace := s.trace ++ [.notify] }
  | sigTerm (s : State) (sig : Signal) (ha : alive s = true) (hpc : s.watcherPc = .loop)
      (hsig : isTerm sig = true) (hsub : sig ∈ subscribed) :
      Step nl fl s (.signal sig) { s with
        watcherPc := .inShutdown (WithTimeout s.now (flagParse fl).ttl), inShutdown := true,
        trace := s.trace ++ [.recvSignal sig s.now, .logShutdown sig,
          .shutdownCall (WithTimeout s.now (flagParse fl).ttl)] }
  | sigOther (s : State) (sig : Signal) (ha : alive s = true) (hpc : s.watcherPc = .loop)
      (hsig : isTerm sig = false) (hsub : sig ∈ subscribed) :
      Step nl fl s (.signal sig)
        { s with trace := s.trace ++ [.recvSignal sig s.now, .logSignal sig] }
  | shutdownReturn (s : State) (d : Int) (e : GoError) (ha : alive s = true)
      (hpc : s.watcherPc = .inShutdown d)
      (hr : s.inFlight = 0 ∨ (d ≤ s.now ∧ e = some .DeadlineExceeded)) :
      Step nl fl s (.shutdownReturn e)
        { s with watcherPc := .sending e, trace := s.trace ++ [.shutdownReturn e] }
  | watcherSend (s : State) (e : GoError) (ha : alive s = true) (hpc : s.watcherPc = .sending e)
      (hc : s.errCh.length < errChCap) :
      Step nl fl s .watcherSend { s with
        watcherPc := .returning, errCh := s.errCh ++ [e],
        trace := s.trace ++ [.sendErrCh .watcher e] }
  | watcherReturn (s : State) (ha : alive s = true) (hpc : s.watcherPc = .returning) :
      Step nl fl s .watcherReturn { s with
        watcherPc := .done, idleConnsClosed := true,
        trace := s.trace ++ [.cancel, .closeIdleConnsClosed] }

/-! ## Inputs of the example runs -/

/-- A `net.Listen` that binds every address. -/
def okListen : String → GoError := fun _ => none

/-- A `net.Listen` that fails on every address. -/
def failListen : String → GoError := fun _ => some (.other 98)

/-- No flag given on the command line. -/
def noFlags : Flags := { addr := none, ttl := none }

/-- The command line `-ttl 0s`. -/
def zeroTtl : Flags := { addr := none, ttl := some 0 }

/-- A run in which SIGTERM arrives, the drain finishes and `main` returns. -/
def cleanRun : List Label :=
  [.main, .watcherInit, .signal SIGTERM, .serveReturn .ErrServerClosed, .serveSend, .main,
   .shutdownReturn none, .watcherSend, .watcherReturn, .main]

/-- A run with two SIGHUPs, then SIGTERM, then a second SIGTERM and a SIGINT. -/
def twoTermRun : List Label :=
  [.main, .watcherInit, .signal SIGHUP, .signal SIGHUP, .signal SIGTERM, .signal SIGTERM,
   .signal SIGINT]

/-- A run in which `srv.Serve` fails, three SIGHUPs arrive, and the serve goroutine hands
the error of `srv.Serve` to `main`. -/
def hupRun : List Label :=
  [.main, .watcherInit, .signal SIGHUP, .serveReturn (.other 1), .serveSend, .main,
   .signal SIGHUP, .signal SIGHUP, .main]

/-- A run in which the watcher is in its loop and SIGUSR1, which line 51 does not
subscribe, is sent to the process. -/
def usr1Run : List Label :=
  [.main, .watcherInit, .signal SIGUSR1]

/-- A run in which `srv.Serve` fails with an error of the listener and `main` reads it. -/
def faultRun : List Label :=
  [.main, .serveReturn (.other 7), .serveSend, .main]

/-- A run with `-ttl 0s`: a request is in flight when SIGTERM arrives, `srv.Serve` has
returned but its goroutine has not sent yet, and the deadline has passed. -/
def deadlinePrefix : List Label :=
  [.main, .accept, .watcherInit, .signal SIGTERM, .serveReturn .ErrServerClosed]

/-- The run `deadlinePrefix` continued: `srv.Shutdown` returns, the watcher sends, `main`
receives. -/
def deadlineRun : List Label :=
  deadlinePrefix ++ [.shutdownReturn (some .DeadlineExceeded), .watcherSend, .main]

/-- A run in which SIGTERM arrives and both goroutines send on `errCh`. -/
def twoSendRun : List Label :=
  [.main, .watcherInit, .signal SIGTERM, .serveReturn .ErrServerClosed, .serveSend, .main,
   .shutdownReturn none, .watcherSend]

/-- A schedule that offers every task a step after the failed `net.Listen`. -/
def bindFailRun : List Label :=
  [.main, .main, .watcherInit, .signal SIGTERM, .serveReturn (.other 1), .serveSend,
   .tick 5, .accept, .main]

/-- A run in which `srv.Shutdown` returns an error of the listener and the watcher
finishes. -/
def shutdownErrRun : List Label :=
  [.main, .watcherInit, .signal SIGINT, .shutdownReturn (some (.other 3)), .watcherSend,
   .watcherReturn]

/-- A run in which SIGTERM arrives five nanoseconds after process start. -/
def lateTermRun : List Label :=
  [.main, .watcherInit, .tick 5, .signal SIGTERM]

/-- A run in which the serve goroutine fills `errCh` before the watcher reaches its send. -/
def fullBufferRun : List Label :=
  [.main, .watcherInit, .signal SIGTERM, .serveReturn .ErrServerClosed, .serveSend,
   .shutdownReturn none]

/-! ## The invariants hold in every run -/

theorem inv_init (nl : String → GoError) (fl : Flags) (t0 : Int) : Inv nl fl t0 (init t0) := by
  constructor <;> simp [init, mainReceived, serveSent, watcherSent, alive, errChCap]

theorem exec_step (nl : String → GoError) (fl : Flags) (s s' : State) (l : Label)
    (h : exec nl fl s l = some s') : Step nl fl s l s' := by
  cases l <;> simp only [exec, mainStep, serveStep, watcherStep] at h <;>
    (repeat' split at h) <;> simp at h <;> subst h
  all_goals first
    | (apply Step.tick <;> simp_all [alive, isTerm, errChCap])
    | (apply Step.listenFail <;> simp_all [alive, isTerm, errChCap])
    | (apply Step.startup <;> simp_all [alive, isTerm, errChCap])
    | (apply Step.exit <;> simp_all [alive, isTerm, errChCap])
    | (apply Step.accept <;> simp_all [alive, isTerm, errChCap])
    | (apply Step.handlerDone <;> simp_all [alive, isTerm, errChCap])
    | (apply Step.serveReturn <;> simp_all [alive, isTerm, errChCap])
    | (apply Step.serveSend <;> simp_all [alive, isTerm, errChCap])
    | (apply Step.watcherInit <;> simp_all [alive, isTerm, errChCap])
    | (apply Step.sigTerm <;> simp_all [alive, isTerm, errChCap])
    | (apply Step.sigOther <;> simp_all [alive, isTerm, errChCap])
    | (apply Step.watcherSend <;> simp_all [alive, isTerm, errChCap])
    | (apply Step.watcherReturn <;> simp_all [alive, isTerm, errChCap])
    | (apply Step.shutdownReturn <;> assumption)
    | (rename_i e rest hc hw
       have hstep := @Step.recvErr nl fl s e rest (by assumption) hc
       simpa [hw] using hstep)

theorem inv_step (nl : String → GoError) (fl : Flags) (t0 : Int) (s s' : State)
    (hi : Inv nl fl t0 s) {l : Label} (h : Step nl fl s l s') : Inv nl fl t0 s' := by
  obtain ⟨h1, h2, h3, h4, h5, h6, h7, h8⟩ := hi
  cases h <;> constructor <;>
    simp_all [mainReceived, serveSent, watcherSent, alive, errChCap] <;> omega

theorem received_append (a b : List Event) : received (a ++ b) = received a ++ received b := by
  simp [received, List.filterMap_append]

theorem logged_append (a b : List Event) : logged (a ++ b) = logged a ++ logged b := by
  simp [logged, List.filterMap_append]

theorem received_nil : received [] = [] := rfl

theorem logged_nil : logged [] = [] := rfl

theorem received_cons (ev : Event) (tr : List Event) :
    received (ev :: tr) = (match ev with
      | .recvSignal sig _ => [sig]
      | _ => []) ++ received tr := by
  cases ev <;> rfl

theorem logged_cons (ev : Event) (tr : List Event) :
    logged (ev :: tr) = (match ev with
      | .logSignal sig => [sig]
      | _ => []) ++ logged tr := by
  cases ev <;> rfl

theorem step_signals (nl : String → GoError) (fl : Flags) (t0 : Int) (s s' : State)
    (hi : Inv nl fl t0 s) {l : Label} (h : Step nl fl s l s')
    (h1 : watcherCalled s.watcherPc = 0 →
      (∀ x ∈ received s.trace, isTerm x = false) ∧ logged s.trace = received s.trace)
    (h2 : watcherCalled s.watcherPc = 1 →
      ∃ pre sig, received s.trace = pre ++ [sig] ∧ isTerm sig = true ∧
        (∀ x ∈ pre, isTerm x = false) ∧ logged s.trace = pre) :
    (watcherCalled s'.watcherPc = 0 →
      (∀ x ∈ received s'.trace, isTerm x = false) ∧ logged s'.trace = received s'.trace) ∧
    (watcherCalled s'.watcherPc = 1 →
      ∃ pre sig, received s'.trace = pre ++ [sig] ∧ isTerm sig = true ∧
        (∀ x ∈ pre, isTerm x = false) ∧ logged s'.trace = pre) := by
  have h0 := hi.start
  clear hi
  cases h <;>
    simp only [received_append, logged_append, received_cons, logged_cons, received_nil,
      logged_nil, apply_ite received, apply_ite logged, List.append_nil, ite_self,
      List.nil_append] <;>
    first
    | exact ⟨h1, h2⟩
    | skip
  case startup hpc hl => simp_all [watcherCalled]
  case watcherInit ha hpc => simp_all [watcherCalled]
  case sigTerm sig ha hpc hsig hsub =>
    have hb := h1 (by simp [hpc, watcherCalled])
    refine ⟨by simp [watcherCalled], fun _ => ⟨received s.trace, sig, rfl, hsig, hb.1, ?_⟩⟩
    simpa using hb.2
  case sigOther sig ha hpc hsig hsub =>
    have hb := h1 (by simp [hpc, watcherCalled])
    refine ⟨fun _ => ⟨?_, ?_⟩, by simp [hpc, watcherCalled]⟩
    · intro x hx
      rcases List.mem_append.1 hx with hx | hx
      · exact hb.1 x hx
      · simp at hx; subst hx; exact hsig
    · simp [hb.2]
  case shutdownReturn d e ha hpc hr => simp_all [watcherCalled]
  case watcherSend e ha hpc hc => simp_all [watcherCalled]
  case watcherReturn ha hpc => simp_all [watcherCalled]

theorem not_mem_of_countP_zero (p : Event → Bool) (tr : List Event) (ev : Event)
    (h : tr.countP p = 0) (hp : p ev = true) : ev ∉ tr := by
  intro hm
  have := List.countP_pos_iff.2 ⟨ev, hm, hp⟩
  omega

theorem ordered_frame (fl : Flags) (t0 : Int) (s s' : State) (evs : List Event)
    (htr : s'.trace = s.trace ++ evs)
    (hprog : progress s' = progress s)
    (hd : ∀ d, s'.watcherPc = .inShutdown d → s.watcherPc = .inShutdown d)
    (he : ∀ e, s'.watcherPc = .sending e → s.watcherPc = .sending e)
    (hev : ∀ ev ∈ evs, isShutdownCall ev = false ∧ isShutdownReturn ev = false ∧
      isSendBy .watcher ev = false)
    (ho : Ordered fl t0 s) : Ordered fl t0 s' := by
  obtain ⟨sig, t, d, e, hsig, hdl, ht, hsub, u1, u2, u3, a1, a2⟩ := ho
  refine ⟨sig, t, d, e, hsig, hdl, ht, ?_, ?_, ?_, ?_, fun d' h => a1 d' (hd d' h),
    fun e' h => a2 e' (he e' h)⟩
  · rw [hprog, htr]
    exact hsub.trans (List.sublist_append_left _ _)
  · intro d' hm
    rw [htr] at hm
    rcases List.mem_append.1 hm with hm | hm
    · exact u1 d' hm
    · have := (hev _ hm).1
      simp [isShutdownCall] at this
  · intro e' hm
    rw [htr] at hm
    rcases List.mem_append.1 hm with hm | hm
    · exact u2 e' hm
    · have := (hev _ hm).2.1
      simp [isShutdownReturn] at this
  · intro e' hm
    rw [htr] at hm
    rcases List.mem_append.1 hm with hm | hm
    · exact u3 e' hm
    · have := (hev _ hm).2.2
      simp [isSendBy] at this

theorem step_ordered (nl : String → GoError) (fl : Flags) (t0 : Int) (s s' : State)
    (hi : Inv nl fl t0 s) {l : Label} (h : Step nl fl s l s')
    (c2 : s.trace.countP (isSendBy .watcher) = watcherSent s.watcherPc)
    (c5 : s.trace.countP isShutdownCall = watcherCalled s.watcherPc)
    (c6 : s.trace.countP isShutdownReturn = watcherReturned s.watcherPc)
    (ho : Ordered fl t0 s) : Ordered fl t0 s' := by
  have hclock := hi.clock
  have hclosed := hi.closed
  have hstart := hi.start
  clear hi
  cases h
  case tick => exact ho
  case accept => exact ho
  case handlerDone => exact ho
  case listenFail e0 hpc hl =>
    refine ordered_frame fl t0 _ _ _ rfl ?_ (fun _ h => h) (fun _ h => h) ?_ ho
    · simp [progress, hstart hpc]
    · simp [isShutdownCall, isShutdownReturn, isSendBy]
  case startup hpc hl =>
    refine ordered_frame fl t0 _ _ _ rfl ?_ ?_ ?_ ?_ ho
    · simp [progress, hstart hpc]
    · simp
    · simp
    · simp [isShutdownCall, isShutdownReturn, isSendBy]
  case recvErr e0 rest hpc hc =>
    refine ordered_frame fl t0 _ _ _ rfl ?_ (fun _ h => h) (fun _ h => h) ?_ ho
    · simp [progress, hpc]
    · by_cases hw : shouldWarn e0 = true <;>
        simp [hw, isShutdownCall, isShutdownReturn, isSendBy]
  case exit hpc hc =>
    obtain ⟨sig, t, d, e, hsig, hdl, ht, hsub, u1, u2, u3, a1, a2⟩ := ho
    have hw := hclosed.1 hc
    refine ⟨sig, t, d, e, hsig, hdl, ht, ?_, ?_, ?_, ?_, a1, a2⟩
    · have h7 : List.Sublist ((chain sig t d e).take 7) s.trace := by
        simpa [progress, hw, hpc] using hsub
      have h9 := List.Sublist.append h7
        (List.Sublist.refl [Event.recvIdleConnsClosed, Event.logExiting])
      simpa [progress, hw, chain] using h9
    · intro d' hm; simp at hm; exact u1 d' hm
    · intro d' hm; simp at hm; exact u2 d' hm
    · intro d' hm; simp at hm; exact u3 d' hm
  case serveReturn e0 ha hpc hs =>
    refine ordered_frame fl t0 _ _ _ rfl ?_ (fun _ h => h) (fun _ h => h) ?_ ho
    · simp [progress]
    · simp [isShutdownCall, isShutdownReturn, isSendBy]
  case serveSend e0 ha hpc hc =>
    refine ordered_frame fl t0 _ _ _ rfl ?_ (fun _ h => h) (fun _ h => h) ?_ ho
    · simp [progress]
    · simp [isShutdownCall, isShutdownReturn, isSendBy]
  case watcherInit ha hpc =>
    refine ordered_frame fl t0 _ _ _ rfl ?_ ?_ ?_ ?_ ho
    · simp [progress, hpc]
    · simp
    · simp
    · simp [isShutdownCall, isShutdownReturn, isSendBy]
  case sigOther sig0 ha hpc hsig hsub =>
    refine ordered_frame fl t0 _ _ _ rfl ?_ (fun _ h => h) (fun _ h => h) ?_ ho
    · simp [progress]
    · simp [isShutdownCall, isShutdownReturn, isSendBy]
  case sigTerm sig0 ha hpc hsig hsub =>
    have n1 : ∀ d', Event.shutdownCall d' ∉ s.trace := fun d' =>
      not_mem_of_countP_zero _ _ _ (by simpa [hpc, watcherCalled] using c5) rfl
    have n2 : ∀ e', Event.shutdownReturn e' ∉ s.trace := fun e' =>
      not_mem_of_countP_zero _ _ _ (by simpa [hpc, watcherReturned] using c6) rfl
    have n3 : ∀ e', Event.sendErrCh .watcher e' ∉ s.trace := fun e' =>
      not_mem_of_countP_zero _ _ _ (by simpa [hpc, watcherSent] using c2) rfl
    refine ⟨sig0, s.now, WithTimeout s.now (flagParse fl).ttl, none, hsig, rfl, hclock,
      ?_, ?_, ?_, ?_, ?_, ?_⟩
    · simp [progress, chain]
    · intro d' hm; simpa [n1] using hm
    · intro e' hm; simp [n2] at hm
    · intro e' hm; simp [n3] at hm
    · intro d' hm; simpa [eq_comm] using hm
    · intro e' hm; simp at hm
  case shutdownReturn d0 e0 ha hpc hr =>
    obtain ⟨sig, t, d, e, hsig, hdl, ht, hsub, u1, u2, u3, a1, a2⟩ := ho
    have n2 : ∀ e', Event.shutdownReturn e' ∉ s.trace := fun e' =>
      not_mem_of_countP_zero _ _ _ (by simpa [hpc, watcherReturned] using c6) rfl
    have n3 : ∀ e', Event.sendErrCh .watcher e' ∉ s.trace := fun e' =>
      not_mem_of_countP_zero _ _ _ (by simpa [hpc, watcherSent] using c2) rfl
    refine ⟨sig, t, d, e0, hsig, hdl, ht, ?_, ?_, ?_, ?_, ?_, ?_⟩
    · have h3 : List.Sublist ((chain sig t d e).take 3) s.trace := by
        simpa [progress, hpc] using hsub
      have h4 := List.Sublist.append h3 (List.Sublist.refl [Event.shutdownReturn e0])
      simpa [progress, chain] using h4
    · intro d' hm; simp at hm; exact u1 d' hm
    · intro e' hm; simpa [n2] using hm
    · intro e' hm; simp [n3] at hm
    · intro d' hm; simp at hm
    · intro e' hm; simpa [eq_comm] using hm
  case watcherSend e0 ha hpc hc =>
    obtain ⟨sig, t, d, e, hsig, hdl, ht, hsub, u1, u2, u3, a1, a2⟩ := ho
    have n3 : ∀ e', Event.sendErrCh .watcher e' ∉ s.trace := fun e' =>
      not_mem_of_countP_zero _ _ _ (by simpa [hpc, watcherSent] using c2) rfl
    have hee : e0 = e := a2 e0 hpc
    subst hee
    refine ⟨sig, t, d, e0, hsig, hdl, ht, ?_, ?_, ?_, ?_, ?_, ?_⟩
    · have h4 : List.Sublist ((chain sig t d e0).take 4) s.trace := by
        simpa [progress, hpc] using hsub
      have h5 := List.Sublist.append h4 (List.Sublist.refl [Event.sendErrCh .watcher e0])
      simpa [progress, chain] using h5
    · intro d' hm; simp at hm; exact u1 d' hm
    · intro e' hm; simp at hm; exact u2 e' hm
    · intro e' hm; simpa [n3] using hm
    · intro d' hm; simp at hm
    · intro e' hm; simp at hm
  case watcherReturn ha hpc =>
    obtain ⟨sig, t, d, e, hsig, hdl, ht, hsub, u1, u2, u3, a1, a2⟩ := ho
    have hne : s.mainPc ≠ .exited := by
      intro hx; simp [alive, hx] at ha
    refine ⟨sig, t, d, e, hsig, hdl, ht, ?_, ?_, ?_, ?_, ?_, ?_⟩
    · have h5 : List.Sublist ((chain sig t d e).take 5) s.trace := by
        simpa [progress, hpc] using hsub
      have h7 := List.Sublist.append h5
        (List.Sublist.refl [Event.cancel, Event.closeIdleConnsClosed])
      simpa [progress, chain, hne] using h7
    · intro d' hm; simp at hm; exact u1 d' hm
    · intro e' hm; simp at hm; exact u2 e' hm
    · intro e' hm; simp at hm; exact u3 e' hm
    · intro d' hm; simp at hm
    · intro e' hm; simp at hm

theorem step_warn (nl : String → GoError) (fl : Flags) (s s' : State) {l : Label}
    (h : Step nl fl s l s')
    (hw : ∀ x, Event.logExitingErr x ∈ s.trace ↔
      (Event.recvErrCh x ∈ s.trace ∧ shouldWarn x = true)) :
    ∀ x, Event.logExitingErr x ∈ s'.trace ↔
      (Event.recvErrCh x ∈ s'.trace ∧ shouldWarn x = true) := by
  intro x
  have hx := hw x
  cases h
  case recvErr e rest hpc hc =>
    by_cases hwe : shouldWarn e = true
    · by_cases hxe : x = e
      · subst hxe; simp [hwe]
      · simp [hwe, hxe, hx]
    · by_cases hxe : x = e
      · subst hxe; simp [hwe, hx]
      · simp [hwe, hxe, hx]
  all_goals simpa using hx

theorem step_logExit (nl : String → GoError) (fl : Flags) (s s' : State) {l : Label}
    (h : Step nl fl s l s')
    (hw : Event.logExiting ∈ s.trace ↔ s.mainPc = .exited) :
    Event.logExiting ∈ s'.trace ↔ s'.mainPc = .exited := by
  cases h <;> simp_all [alive]

theorem step_call (nl : String → GoError) (fl : Flags) (t0 : Int) (s s' : State)
    {l : Label} (h : Step nl fl s l s') (hclock : t0 ≤ s.now)
    (hw : ∀ d, Event.shutdownCall d ∈ s.trace → ∃ sig t, isTerm sig = true ∧
      d = WithTimeout t (flagParse fl).ttl ∧ t0 ≤ t ∧ t ≤ s.now ∧
      [Event.recvSignal sig t, Event.logShutdown sig, Event.shutdownCall d] <:+: s.trace) :
    ∀ d, Event.shutdownCall d ∈ s'.trace → ∃ sig t, isTerm sig = true ∧
      d = WithTimeout t (flagParse fl).ttl ∧ t0 ≤ t ∧ t ≤ s'.now ∧
      [Event.recvSignal sig t, Event.logShutdown sig, Event.shutdownCall d] <:+: s'.trace := by
  have old : ∀ (evs : List Event) (d : Int), Event.shutdownCall d ∈ s.trace →
      ∃ sig t, isTerm sig = true ∧ d = WithTimeout t (flagParse fl).ttl ∧ t0 ≤ t ∧
      t ≤ s.now ∧
      [Event.recvSignal sig t, Event.logShutdown sig, Event.shutdownCall d] <:+:
        s.trace ++ evs := by
    intro evs d hm
    obtain ⟨sig, t, h1, h2, h3, h4, h5⟩ := hw d hm
    exact ⟨sig, t, h1, h2, h3, h4, h5.trans ⟨[], evs, by simp⟩⟩
  intro d hm
  cases h
  case tick n ha =>
    obtain ⟨sig, t, h1, h2, h3, h4, h5⟩ := hw d hm
    exact ⟨sig, t, h1, h2, h3, le_trans h4 (by simp), h5⟩
  case accept => exact hw d hm
  case handlerDone => exact hw d hm
  case sigTerm sig ha hpc hsig hsub =>
    rcases List.mem_append.1 hm with hm | hm
    · exact old _ d hm
    · simp at hm
      subst hm
      exact ⟨sig, s.now, hsig, rfl, hclock, le_refl _, ⟨s.trace, [], by simp⟩⟩
  case recvErr e rest hpc hc =>
    rcases List.mem_append.1 hm with hm | hm
    · exact old _ d hm
    · by_cases hwe : shouldWarn e = true <;> simp [hwe] at hm
  all_goals
    rcases List.mem_append.1 hm with hm | hm
    · exact old _ d hm
    · simp at hm

theorem step_counts (nl : String → GoError) (fl : Flags) (t0 : Int) (s s' : State)
    (hi : Inv nl fl t0 s) {l : Label} (h : Step nl fl s l s')
    (h1 : s.trace.countP (isSendBy .serve) = serveSent s.servePc)
    (h2 : s.trace.countP (isSendBy .watcher) = watcherSent s.watcherPc)
    (h3 : s.trace.countP isRecvErrCh = mainReceived s.mainPc)
    (h4 : s.trace.countP isClose = watcherClosed s.watcherPc)
    (h5 : s.trace.countP isShutdownCall = watcherCalled s.watcherPc)
    (h6 : s.trace.countP isShutdownReturn = watcherReturned s.watcherPc)
    (h7 : s.trace.countP isSendErrCh = serveSent s.servePc + watcherSent s.watcherPc) :
    s'.trace.countP (isSendBy .serve) = serveSent s'.servePc ∧
    s'.trace.countP (isSendBy .watcher) = watcherSent s'.watcherPc ∧
    s'.trace.countP isRecvErrCh = mainReceived s'.mainPc ∧
    s'.trace.countP isClose = watcherClosed s'.watcherPc ∧
    s'.trace.countP isShutdownCall = watcherCalled s'.watcherPc ∧
    s'.trace.countP isShutdownReturn = watcherReturned s'.watcherPc ∧
    s'.trace.countP isSendErrCh = serveSent s'.servePc + watcherSent s'.watcherPc := by
  have h0 := hi.start
  clear hi
  cases h <;>
    simp_all [serveSent, watcherSent, mainReceived, watcherClosed, watcherCalled,
      watcherReturned, isSendBy, isRecvErrCh, isClose, isShutdownCall, isShutdownReturn,
      isSendErrCh, List.countP_append, List.countP_cons, apply_ite (List.countP _)]
  omega

theorem step_recvSub (nl : String → GoError) (fl : Flags) (s s' : State) {l : Label}
    (h : Step nl fl s l s') (hr : ∀ x ∈ received s.trace, x ∈ subscribed) :
    ∀ x ∈ received s'.trace, x ∈ subscribed := by
  cases h <;>
    simp only [received_append, received_cons, received_nil, apply_ite received,
      List.append_nil, ite_self, List.nil_append] <;>
    first
    | exact hr
    | (intro x hx
       rcases List.mem_append.1 hx with hx | hx
       · exact hr x hx
       · simp at hx; subst hx; assumption)

theorem good_init (nl : String → GoError) (fl : Flags) (t0 : Int) : Good nl fl t0 (init t0) := by
  have ho : Ordered fl t0 (init t0) :=
    ⟨SIGINT, t0, WithTimeout t0 (flagParse fl).ttl, none, rfl, rfl, le_refl _,
      by simp [init, progress], by simp [init], by simp [init], by simp [init],
      by simp [init], by simp [init]⟩
  refine ⟨inv_init nl fl t0, ?_, ?_, ?_, ?_, ?_, ?_, ?_, ?_, ?_, ?_, ?_, ?_, ho, ?_⟩
  all_goals simp [init, mainReceived, serveSent, watcherSent, watcherClosed, watcherCalled,
    watcherReturned, received, logged]

theorem good_step (nl : String → GoError) (fl : Flags) (t0 : Int) (s s' : State)
    (hg : Good nl fl t0 s) {l : Label} (h : Step nl fl s l s') : Good nl fl t0 s' := by
  obtain ⟨c1, c2, c3, c4, c5, c6, c7⟩ := step_counts nl fl t0 s s' hg.inv h hg.cntServe
    hg.cntWatcher hg.cntRecv hg.cntClose hg.cntCall hg.cntReturn hg.cntSend
  obtain ⟨b1, b2⟩ := step_signals nl fl t0 s s' hg.inv h hg.before hg.after
  exact ⟨inv_step nl fl t0 s s' hg.inv h, c1, c2, c3, c4, c5, c6, c7, b1, b2,
    step_warn nl fl s s' h hg.warn, step_logExit nl fl s s' h hg.logExit,
    step_call nl fl t0 s s' h hg.inv.clock hg.call,
    step_ordered nl fl t0 s s' hg.inv h hg.cntWatcher hg.cntCall hg.cntReturn hg.ordered,
    step_recvSub nl fl s s' h hg.recvSub⟩

theorem good_next (nl : String → GoError) (fl : Flags) (t0 : Int) (s : State) (l : Label)
    (hg : Good nl fl t0 s) : Good nl fl t0 (next nl fl s l) := by
  unfold next
  cases hx : exec nl fl s l with
  | none => simpa using hg
  | some s' => simpa using good_step nl fl t0 s s' hg (exec_step nl fl s s' l hx)

theorem good_foldl (nl : String → GoError) (fl : Flags) (t0 : Int) (ls : List Label) :
    ∀ s, Good nl fl t0 s → Good nl fl t0 (ls.foldl (next nl fl) s) := by
  induction ls with
  | nil => intro s hg; simpa using hg
  | cons l ls ih => intro s hg; exact ih _ (good_next nl fl t0 s l hg)

theorem good_run (nl : String → GoError) (fl : Flags) (t0 : Int) (ls : List Label) :
    Good nl fl t0 (run nl fl t0 ls) :=
  good_foldl nl fl t0 ls _ (good_init nl fl t0)

theorem run_append (nl : String → GoError) (fl : Flags) (t0 : Int) (ls ls' : List Label) :
    run nl fl t0 (ls ++ ls') = ls'.foldl (next nl fl) (run nl fl t0 ls) := by
  simp [run, List.foldl_append]

/-! ## C1: `main` returns only after `idleConnsClosed` is closed -/

/-- C1: in every run, `main` has returned (or logged "Exiting.") only if
`idleConnsClosed` is closed, and the close precedes the final receive and the log line
in the trace; after the receive from `errCh`, whatever value it yields, `main` stays
blocked at line 73 as long as `idleConnsClosed` is open. -/
theorem main_returns_only_after_close (nl : String → GoError) (fl : Flags) (t0 : Int)
    (ls : List Label) :
    ((run nl fl t0 ls).mainPc = .exited ∨ Event.logExiting ∈ (run nl fl t0 ls).trace →
      (run nl fl t0 ls).idleConnsClosed = true ∧
      List.Sublist [Event.closeIdleConnsClosed, Event.recvIdleConnsClosed, Event.logExiting]
        (run nl fl t0 ls).trace) ∧
    (∀ e, Event.recvErrCh e ∈ (run nl fl t0 ls).trace →
      (run nl fl t0 ls).idleConnsClosed = false →
      (run nl fl t0 ls).mainPc = .waitIdleConnsClosed ∧
      exec nl fl (run nl fl t0 ls) .main = none) := by
  have hg := good_run nl fl t0 ls
  generalize run nl fl t0 ls = s at hg
  constructor
  · intro h
    have hx : s.mainPc = .exited := h.elim id hg.logExit.1
    have hc := hg.inv.exited hx
    have hw := hg.inv.closed.1 hc
    refine ⟨hc, ?_⟩
    obtain ⟨sig, t, d, e, -, -, -, hsub, -⟩ := hg.ordered
    have h9 : List.Sublist (chain sig t d e) s.trace := by
      simpa [progress, hw, hx, chain] using hsub
    refine List.Sublist.trans ?_ h9
    exact List.sublist_append_right
      [Event.recvSignal sig t, Event.logShutdown sig, Event.shutdownCall d,
        Event.shutdownReturn e, Event.sendErrCh .watcher e, Event.cancel] _
  · intro e hm hc
    have hpos : 0 < s.trace.countP isRecvErrCh := List.countP_pos_iff.2 ⟨_, hm, rfl⟩
    rw [hg.cntRecv] at hpos
    have hne : s.mainPc ≠ .exited := fun hx => by simp [hg.inv.exited hx] at hc
    have hpc : s.mainPc = .waitIdleConnsClosed := by
      cases hm : s.mainPc <;> simp_all [mainReceived]
    exact ⟨hpc, by simp [exec, mainStep, hpc, hc]⟩

/-- C1 at the run `cleanRun`: `main` has returned and `idleConnsClosed` is closed. -/
theorem main_returns_only_after_close_witness :
    (run okListen noFlags 0 cleanRun).mainPc = .exited ∧
    (run okListen noFlags 0 cleanRun).idleConnsClosed = true ∧
    List.Sublist [Event.closeIdleConnsClosed, Event.recvIdleConnsClosed, Event.logExiting]
      (run okListen noFlags 0 cleanRun).trace :=
  ⟨by decide, (main_returns_only_after_close okListen noFlags 0 cleanRun).1 (Or.inl (by decide))⟩

/-! ## C2: one call of `srv.Shutdown` -/

theorem mem_received (tr : List Event) (sig : Signal) (t : Int)
    (h : Event.recvSignal sig t ∈ tr) : sig ∈ received tr := by
  unfold received
  exact List.mem_filterMap.2 ⟨_, h, rfl⟩

theorem called_iff_term (nl : String → GoError) (fl : Flags) (t0 : Int) (s : State)
    (hg : Good nl fl t0 s) :
    watcherCalled s.watcherPc = 1 ↔ ∃ sig ∈ received s.trace, isTerm sig = true := by
  constructor
  · intro h
    obtain ⟨pre, sig, h1, h2, -⟩ := hg.after h
    exact ⟨sig, by simp [h1], h2⟩
  · rintro ⟨sig, hm, hs⟩
    by_contra hne
    have h0 : watcherCalled s.watcherPc = 0 := by
      cases hw : s.watcherPc <;> simp_all [watcherCalled]
    have := (hg.before h0).1 sig hm
    simp [hs] at this

/-- C2: in every run the watcher calls `srv.Shutdown` at most once, and exactly once
if and only if a SIGINT or SIGTERM is among the signals it received; that signal is
the first of its kind and the last signal received, the call follows its receipt and
log line directly, and afterwards no signal can be received. -/
theorem watcher_calls_shutdown_once (nl : String → GoError) (fl : Flags) (t0 : Int)
    (ls : List Label) :
    (run nl fl t0 ls).trace.countP isShutdownCall ≤ 1 ∧
    ((run nl fl t0 ls).trace.countP isShutdownCall = 1 ↔
      ∃ sig ∈ received (run nl fl t0 ls).trace, isTerm sig = true) ∧
    ((∃ sig ∈ received (run nl fl t0 ls).trace, isTerm sig = true) →
      ∃ pre sig t d, received (run nl fl t0 ls).trace = pre ++ [sig] ∧
        isTerm sig = true ∧ (∀ x ∈ pre, isTerm x = false) ∧
        [Event.recvSignal sig t, Event.logShutdown sig, Event.shutdownCall d] <:+:
          (run nl fl t0 ls).trace ∧
        (∀ d', Event.shutdownCall d' ∈ (run nl fl t0 ls).trace → d' = d) ∧
        ∀ sig', exec nl fl (run nl fl t0 ls) (.signal sig') = none) := by
  have hg := good_run nl fl t0 ls
  generalize run nl fl t0 ls = s at hg
  have hiff := called_iff_term nl fl t0 s hg
  refine ⟨?_, ?_, ?_⟩
  · rw [hg.cntCall]
    cases s.watcherPc <;> simp [watcherCalled]
  · rw [hg.cntCall]
    exact hiff
  · intro h
    have hc := hiff.2 h
    obtain ⟨pre, sig, h1, h2, h3, -⟩ := hg.after hc
    obtain ⟨sig0, t, d, e, -, -, -, hsub, u1, -⟩ := hg.ordered
    have h3' : List.Sublist ((chain sig0 t d e).take 3) s.trace := by
      refine List.Sublist.trans ?_ hsub
      cases hw : s.watcherPc <;> simp_all [watcherCalled, progress, chain]
      split <;> simp
    have hd : Event.shutdownCall d ∈ s.trace := h3'.subset (by simp [chain])
    obtain ⟨sig1, t1, hs1, -, -, -, hin⟩ := hg.call d hd
    have hm : sig1 ∈ received s.trace :=
      mem_received _ _ t1 (hin.subset (by simp))
    have heq : sig1 = sig := by
      rw [h1] at hm
      rcases List.mem_append.1 hm with hm | hm
      · have := h3 sig1 hm
        simp [hs1] at this
      · simpa using hm
    subst heq
    refine ⟨pre, sig1, t1, d, h1, h2, h3, hin, u1, ?_⟩
    intro sig'
    cases hw : s.watcherPc <;> simp_all [watcherCalled, exec, watcherStep]

/-- C2 at the run `twoTermRun`: two terminate signals in succession, one call. -/
theorem watcher_calls_shutdown_once_witness :
    received (run okListen noFlags 0 twoTermRun).trace = [SIGHUP, SIGHUP, SIGTERM] ∧
    (run okListen noFlags 0 twoTermRun).trace.countP isShutdownCall = 1 :=
  ⟨by decide, (watcher_calls_shutdown_once okListen noFlags 0 twoTermRun).2.1.2
    ⟨SIGTERM, by decide, by decide⟩⟩

/-! ## C3: no terminate signal, no shutdown -/

/-- C3 fails on `usr1Run`: SIGUSR1 is neither SIGINT nor SIGTERM, the watcher is in its
loop, and the signal is not received from `ch` and no line is logged for it. -/
theorem other_signal_not_logged_counterexample :
    isTerm SIGUSR1 = false ∧
    (run okListen noFlags 0 [.main, .watcherInit]).watcherPc = .loop ∧
    exec okListen noFlags (run okListen noFlags 0 [.main, .watcherInit]) (.signal SIGUSR1)
      = none ∧
    received (run okListen noFlags 0 usr1Run).trace = [] ∧
    logged (run okListen noFlags 0 usr1Run).trace = [] := by
  decide

/-- C3 as amended: when no SIGINT or SIGTERM is among the signals the watcher received
from `ch`, all of them are SIGHUP, and the watcher has not called `srv.Shutdown`, has not
sent on `errCh` and has not closed `idleConnsClosed`; it has logged exactly the signals
it received and is still before or in its loop, where a further SIGHUP is received and
logged and a signal outside the subscription of line 51 is not received; `main` has not
passed line 73. -/
theorem no_term_signal_no_shutdown (nl : String → GoError) (fl : Flags) (t0 : Int)
    (ls : List Label)
    (h : ∀ sig ∈ received (run nl fl t0 ls).trace, isTerm sig = false) :
    (∀ d, Event.shutdownCall d ∉ (run nl fl t0 ls).trace) ∧
    (∀ e, Event.sendErrCh .watcher e ∉ (run nl fl t0 ls).trace) ∧
    Event.closeIdleConnsClosed ∉ (run nl fl t0 ls).trace ∧
    (run nl fl t0 ls).idleConnsClosed = false ∧
    logged (run nl fl t0 ls).trace = received (run nl fl t0 ls).trace ∧
    ((run nl fl t0 ls).watcherPc = .notStarted ∨ (run nl fl t0 ls).watcherPc = .spawned ∨
      (run nl fl t0 ls).watcherPc = .loop) ∧
    (∀ sig ∈ received (run nl fl t0 ls).trace, sig = SIGHUP) ∧
    ((run nl fl t0 ls).watcherPc = .loop →
      exec nl fl (run nl fl t0 ls) (.signal SIGHUP) =
        some { run nl fl t0 ls with
          trace := (run nl fl t0 ls).trace ++
            [.recvSignal SIGHUP (run nl fl t0 ls).now, .logSignal SIGHUP] }) ∧
    (∀ sig, sig ∉ subscribed → exec nl fl (run nl fl t0 ls) (.signal sig) = none) ∧
    (run nl fl t0 ls).mainPc ≠ .exited ∧
    Event.logExiting ∉ (run nl fl t0 ls).trace := by
  have hg := good_run nl fl t0 ls
  generalize run nl fl t0 ls = s at hg h
  have h0 : watcherCalled s.watcherPc = 0 := by
    by_contra hne
    have h1 : watcherCalled s.watcherPc = 1 := by
      cases hw : s.watcherPc <;> simp_all [watcherCalled]
    obtain ⟨pre, sig, e1, e2, -⟩ := hg.after h1
    have := h sig (by simp [e1])
    simp [e2] at this
  have hpc : s.watcherPc = .notStarted ∨ s.watcherPc = .spawned ∨ s.watcherPc = .loop := by
    cases hw : s.watcherPc <;> simp_all [watcherCalled]
  have hcl : s.idleConnsClosed = false := by
    cases hc : s.idleConnsClosed
    · rfl
    · have := hg.inv.closed.1 hc
      simp [this, watcherCalled] at h0
  have hex : s.mainPc ≠ .exited := fun hx => by simp [hg.inv.exited hx] at hcl
  refine ⟨?_, ?_, ?_, hcl, (hg.before h0).2, hpc, ?_, ?_, ?_, hex,
    fun hm => hex (hg.logExit.1 hm)⟩
  · intro d
    exact not_mem_of_countP_zero _ _ _ (by rw [hg.cntCall, h0]) rfl
  · intro e
    refine not_mem_of_countP_zero (isSendBy .watcher) _ _ ?_ rfl
    rw [hg.cntWatcher]
    rcases hpc with hw | hw | hw <;> simp [hw, watcherSent]
  · refine not_mem_of_countP_zero isClose _ _ ?_ rfl
    rw [hg.cntClose]
    rcases hpc with hw | hw | hw <;> simp [hw, watcherClosed]
  · intro sig hm
    have hs := h sig hm
    have hsb := hg.recvSub sig hm
    simp only [subscribed, List.mem_cons, List.mem_singleton, List.not_mem_nil, or_false]
      at hsb
    rcases hsb with hx | hx | hx
    · simp [hx, isTerm] at hs
    · simp [hx, isTerm] at hs
    · exact hx
  · intro hw
    have ha : alive s = true := by
      have h1 := hg.inv.start
      have h2 := hg.inv.fatal
      cases hm : s.mainPc <;> simp_all [alive]
    simp [exec, watcherStep, ha, hw, subscribed]
    decide
  · intro sig hn
    cases hw : s.watcherPc <;> simp [exec, watcherStep, hw, hn]

/-- C3 as amended, at the run `hupRun`: three SIGHUPs received and logged, no shutdown,
`main` blocked at line 73. -/
theorem no_term_signal_no_shutdown_witness :
    received (run okListen noFlags 0 hupRun).trace = [SIGHUP, SIGHUP, SIGHUP] ∧
    (run okListen noFlags 0 hupRun).mainPc = .waitIdleConnsClosed ∧
    (run okListen noFlags 0 hupRun).idleConnsClosed = false ∧
    logged (run okListen noFlags 0 hupRun).trace = received (run okListen noFlags 0 hupRun).trace :=
  ⟨by decide, by decide,
    (no_term_signal_no_shutdown okListen noFlags 0 hupRun (by decide)).2.2.2.1,
    (no_term_signal_no_shutdown okListen noFlags 0 hupRun (by decide)).2.2.2.2.1⟩

/-! ## C4: the warning of line 70 -/

/-- C4: in every run the line "Exiting: err" is in the trace if and only if `main`
received `err` from `errCh` and `err` is neither nil nor `http.ErrServerClosed`; `main`
receives at most once, and the receive of any value `e` leads to the same state, the
wait at line 73, the warning in the trace apart. -/
theorem warning_iff_unexpected (nl : String → GoError) (fl : Flags) (t0 : Int)
    (ls : List Label) :
    (∀ x, Event.logExitingErr x ∈ (run nl fl t0 ls).trace ↔
      (Event.recvErrCh x ∈ (run nl fl t0 ls).trace ∧ x ≠ none ∧
        x ≠ some Err.ErrServerClosed)) ∧
    (run nl fl t0 ls).trace.countP isRecvErrCh ≤ 1 ∧
    (∀ e rest, (run nl fl t0 ls).mainPc = .recvErrCh → (run nl fl t0 ls).errCh = e :: rest →
      exec nl fl (run nl fl t0 ls) .main =
        some { run nl fl t0 ls with
          mainPc := .waitIdleConnsClosed, errCh := rest,
          trace := (run nl fl t0 ls).trace ++ (Event.recvErrCh e ::
            if e ≠ none ∧ e ≠ some Err.ErrServerClosed then [Event.logExitingErr e]
            else []) }) := by
  have hg := good_run nl fl t0 ls
  generalize run nl fl t0 ls = s at hg
  refine ⟨?_, ?_, ?_⟩
  · intro x
    rw [hg.warn x]
    simp [shouldWarn]
  · rw [hg.cntRecv]
    cases s.mainPc <;> simp [mainReceived]
  · intro e rest hpc hc
    simp [exec, mainStep, hpc, hc, shouldWarn]

/-- C4 at the run `faultRun`: the listener's error is logged and `main` waits at line 73. -/
theorem warning_iff_unexpected_witness :
    Event.recvErrCh (some (Err.other 7)) ∈ (run okListen noFlags 0 faultRun).trace ∧
    (run okListen noFlags 0 faultRun).mainPc = .waitIdleConnsClosed ∧
    Event.logExitingErr (some (Err.other 7)) ∈ (run okListen noFlags 0 faultRun).trace :=
  ⟨by decide, by decide,
    ((warning_iff_unexpected okListen noFlags 0 faultRun).1 (some (Err.other 7))).2
      ⟨by decide, by decide, by decide⟩⟩

/-! ## C5: the outcome of a drain cut short by the deadline -/

theorem alive_of_watcher (nl : String → GoError) (fl : Flags) (t0 : Int) (s : State)
    (hg : Good nl fl t0 s) (hw : s.watcherPc ≠ .notStarted) (hd : s.watcherPc ≠ .done) :
    alive s = true := by
  have h1 := hg.inv.start
  have h2 := hg.inv.fatal
  have h3 := hg.inv.exited
  have h4 := hg.inv.closed
  cases hm : s.mainPc <;> simp_all [alive]

theorem eq_of_countP_le_one (p : Event → Bool) (tr : List Event) (a b : Event)
    (hc : tr.countP p ≤ 1) (ha : a ∈ tr) (hb : b ∈ tr) (pa : p a = true) (pb : p b = true) :
    a = b := by
  induction tr with
  | nil => simp at ha
  | cons x xs ih =>
    rw [List.countP_cons] at hc
    rcases List.mem_cons.1 ha with ha1 | ha1
    · subst ha1
      rcases List.mem_cons.1 hb with hb1 | hb1
      · exact hb1.symm
      · have hpos : 0 < List.countP p xs := List.countP_pos_iff.2 ⟨b, hb1, pb⟩
        rw [if_pos pa] at hc
        omega
    · rcases List.mem_cons.1 hb with hb1 | hb1
      · subst hb1
        have hpos : 0 < List.countP p xs := List.countP_pos_iff.2 ⟨a, ha1, pa⟩
        rw [if_pos pb] at hc
        omega
      · exact ih (Nat.le_trans (Nat.le_add_right _ _) hc) ha1 hb1

/-- C5 fails on `deadlineRun`: the deadline has passed with a handler in flight,
`srv.Shutdown` can return neither nil nor `http.ErrServerClosed`, the watcher sends
`context.DeadlineExceeded`, `main` reads it and logs the warning. -/
theorem deadline_outcome_counterexample :
    (run okListen zeroTtl 0 deadlinePrefix).watcherPc = .inShutdown 0 ∧
    (run okListen zeroTtl 0 deadlinePrefix).now = 0 ∧
    (run okListen zeroTtl 0 deadlinePrefix).inFlight = 1 ∧
    exec okListen zeroTtl (run okListen zeroTtl 0 deadlinePrefix) (.shutdownReturn none) = none ∧
    exec okListen zeroTtl (run okListen zeroTtl 0 deadlinePrefix)
      (.shutdownReturn (some .ErrServerClosed)) = none ∧
    Event.sendErrCh .watcher (some .DeadlineExceeded) ∈
      (run okListen zeroTtl 0 deadlineRun).trace ∧
    Event.recvErrCh (some .DeadlineExceeded) ∈ (run okListen zeroTtl 0 deadlineRun).trace ∧
    Event.logExitingErr (some .DeadlineExceeded) ∈ (run okListen zeroTtl 0 deadlineRun).trace := by
  decide

/-- C5 as amended: when `srv.Shutdown` returns with a handler in flight, the deadline has
passed and the value is `context.DeadlineExceeded`; the watcher sends the value
`srv.Shutdown` returned unchanged; `main` logs the warning exactly for a value it read
that is neither nil nor `http.ErrServerClosed`, so none after reading
`http.ErrServerClosed` and one after reading `context.DeadlineExceeded`. -/
theorem deadline_outcome_forwarded (nl : String → GoError) (fl : Flags) (t0 : Int)
    (ls : List Label) :
    (∀ e s', 0 < (run nl fl t0 ls).inFlight →
      exec nl fl (run nl fl t0 ls) (.shutdownReturn e) = some s' →
      e = some .DeadlineExceeded ∧ s'.watcherPc = .sending e ∧
      ∃ d, (run nl fl t0 ls).watcherPc = .inShutdown d ∧ d ≤ (run nl fl t0 ls).now) ∧
    (∀ e, (run nl fl t0 ls).watcherPc = .sending e → (run nl fl t0 ls).errCh = [] →
      exec nl fl (run nl fl t0 ls) .watcherSend =
        some { run nl fl t0 ls with
          watcherPc := .returning, errCh := [e],
          trace := (run nl fl t0 ls).trace ++ [Event.sendErrCh .watcher e] }) ∧
    (∀ e, Event.sendErrCh .watcher e ∈ (run nl fl t0 ls).trace →
      Event.shutdownReturn e ∈ (run nl fl t0 ls).trace) ∧
    (∀ x, Event.logExitingErr x ∈ (run nl fl t0 ls).trace ↔
      (Event.recvErrCh x ∈ (run nl fl t0 ls).trace ∧ x ≠ none ∧
        x ≠ some Err.ErrServerClosed)) ∧
    (Event.recvErrCh (some .ErrServerClosed) ∈ (run nl fl t0 ls).trace →
      ∀ x, Event.logExitingErr x ∉ (run nl fl t0 ls).trace) ∧
    (Event.recvErrCh (some .DeadlineExceeded) ∈ (run nl fl t0 ls).trace →
      Event.logExitingErr (some .DeadlineExceeded) ∈ (run nl fl t0 ls).trace) := by
  have hg := good_run nl fl t0 ls
  generalize run nl fl t0 ls = s at hg
  have hwarn : ∀ x, Event.logExitingErr x ∈ s.trace ↔
      (Event.recvErrCh x ∈ s.trace ∧ x ≠ none ∧ x ≠ some Err.ErrServerClosed) := by
    intro x
    rw [hg.warn x]
    simp [shouldWarn]
  refine ⟨?_, ?_, ?_, hwarn, ?_, ?_⟩
  · intro e s' hf hx
    cases hw : s.watcherPc <;> simp [exec, watcherStep, hw] at hx
    case inShutdown d =>
      obtain ⟨-, hr, rfl⟩ := hx
      have hne : s.inFlight ≠ 0 := by omega
      simp [hne] at hr
      exact ⟨hr.2, rfl, d, rfl, hr.1⟩
  · intro e hw hc
    have ha := alive_of_watcher nl fl t0 s hg (by simp [hw]) (by simp [hw])
    simp [exec, watcherStep, ha, hw, hc, errChCap]
  · intro e hm
    obtain ⟨sig, t, d, e0, -, -, -, hsub, -, -, u3, -⟩ := hg.ordered
    have he := u3 e hm
    subst he
    have hpos : 0 < s.trace.countP (isSendBy .watcher) :=
      List.countP_pos_iff.2 ⟨_, hm, rfl⟩
    rw [hg.cntWatcher] at hpos
    have h4 : List.Sublist ((chain sig t d e).take 4) s.trace := by
      refine List.Sublist.trans ?_ hsub
      cases hw : s.watcherPc <;> simp_all [watcherSent, progress, chain]
      split <;> simp
    exact h4.subset (by simp [chain])
  · intro hm x hx
    have hr := (hwarn x).1 hx
    have hc : s.trace.countP isRecvErrCh ≤ 1 := by
      rw [hg.cntRecv]
      cases s.mainPc <;> simp [mainReceived]
    have := eq_of_countP_le_one isRecvErrCh s.trace _ _ hc hm hr.1 rfl rfl
    simp at this
    exact hr.2.2 this.symm
  · intro hm
    exact (hwarn _).2 ⟨hm, by simp, by simp⟩

/-- C5 as amended, at `deadlineRun`: the value returned with a handler in flight is
`context.DeadlineExceeded`, and the warning is logged once `main` has read it. -/
theorem deadline_outcome_forwarded_witness :
    0 < (run okListen zeroTtl 0 deadlinePrefix).inFlight ∧
    Event.recvErrCh (some .DeadlineExceeded) ∈ (run okListen zeroTtl 0 deadlineRun).trace ∧
    Event.logExitingErr (some .DeadlineExceeded) ∈ (run okListen zeroTtl 0 deadlineRun).trace :=
  ⟨by decide, by decide,
    (deadline_outcome_forwarded okListen zeroTtl 0 deadlineRun).2.2.2.2.2 (by decide)⟩

/-! ## C6: writers of `errCh` and `idleConnsClosed` -/

/-- C6 fails on `twoSendRun`: two values are sent on `errCh`, `http.ErrServerClosed` by the
serve goroutine and nil by the watcher. -/
theorem errCh_written_twice_counterexample :
    (run okListen noFlags 0 twoSendRun).trace.countP isSendErrCh = 2 ∧
    Event.sendErrCh .serve (some .ErrServerClosed) ∈ (run okListen noFlags 0 twoSendRun).trace ∧
    Event.sendErrCh .watcher none ∈ (run okListen noFlags 0 twoSendRun).trace := by
  decide

/-- C6 as amended: in every run at most two values are sent on `errCh`, at most one by
the serve goroutine and at most one by the watcher, `main` receives at most one, the
buffer never holds more than one, and `idleConnsClosed` is closed at most once. -/
theorem errCh_two_writers (nl : String → GoError) (fl : Flags) (t0 : Int) (ls : List Label) :
    (run nl fl t0 ls).trace.countP isSendErrCh ≤ 2 ∧
    (run nl fl t0 ls).trace.countP isSendErrCh =
      (run nl fl t0 ls).trace.countP (isSendBy .serve) +
      (run nl fl t0 ls).trace.countP (isSendBy .watcher) ∧
    (run nl fl t0 ls).trace.countP (isSendBy .serve) ≤ 1 ∧
    (run nl fl t0 ls).trace.countP (isSendBy .watcher) ≤ 1 ∧
    (run nl fl t0 ls).trace.countP isRecvErrCh ≤ 1 ∧
    (run nl fl t0 ls).errCh.length ≤ errChCap ∧
    (run nl fl t0 ls).trace.countP isClose ≤ 1 := by
  have hg := good_run nl fl t0 ls
  generalize run nl fl t0 ls = s at hg
  have h1 : serveSent s.servePc ≤ 1 := by cases s.servePc <;> simp [serveSent]
  have h2 : watcherSent s.watcherPc ≤ 1 := by cases s.watcherPc <;> simp [watcherSent]
  have h3 : mainReceived s.mainPc ≤ 1 := by cases s.mainPc <;> simp [mainReceived]
  have h4 : watcherClosed s.watcherPc ≤ 1 := by cases s.watcherPc <;> simp [watcherClosed]
  have h5 := hg.inv.chan
  rw [hg.cntSend, hg.cntServe, hg.cntWatcher, hg.cntRecv, hg.cntClose]
  exact ⟨by omega, rfl, h1, h2, h3, hg.inv.cap, h4⟩

/-! ## C7: failure of `net.Listen` -/

theorem exec_fatal (nl : String → GoError) (fl : Flags) (s : State)
    (hs : s.mainPc = .fatal) (l : Label) : exec nl fl s l = none := by
  cases l <;> simp [exec, mainStep, alive, hs]

theorem exec_start (nl : String → GoError) (fl : Flags) (s : State)
    (hs : s.mainPc = .start) (l : Label) (hl : l ≠ .main) : exec nl fl s l = none := by
  cases l <;> simp [exec, alive, hs] at hl ⊢

theorem foldl_fatal (nl : String → GoError) (fl : Flags) (ls : List Label) :
    ∀ s : State, s.mainPc = .fatal → (ls.foldl (next nl fl) s).mainPc = .fatal := by
  induction ls with
  | nil => intro s hs; simpa using hs
  | cons l ls ih =>
    intro s hs
    have hn : next nl fl s l = s := by simp [next, exec_fatal nl fl s hs l]
    simpa [hn] using ih s hs

theorem foldl_start (nl : String → GoError) (fl : Flags) (e : Err)
    (h : nl (flagParse fl).addr = some e) (ls : List Label) :
    ∀ s : State, s.mainPc = .start → ls.contains .main = true →
      (ls.foldl (next nl fl) s).mainPc = .fatal := by
  induction ls with
  | nil => intro s _ hc; simp at hc
  | cons l ls ih =>
    intro s hs hc
    by_cases hl : l = .main
    · subst hl
      have hn : (next nl fl s .main).mainPc = .fatal := by
        simp [next, exec, mainStep, hs, h]
      simpa using foldl_fatal nl fl ls _ hn
    · have hn : next nl fl s l = s := by simp [next, exec_start nl fl s hs l hl]
      have hc' : ls.contains .main = true := by
        simp at hc
        rcases hc with hc | hc
        · exact absurd hc.symm hl
        · simpa using hc
      simpa [hn] using ih s hs hc'

/-- C7: when `net.Listen` fails on the bind address, every run is either still before
`main`'s first step or stopped in `log.Fatal` with the trace "listen, fatal": one call
of `net.Listen`, no handler registered, no channel made, no goroutine started, no
`signal.Notify`; once in `log.Fatal`, no label can be taken. -/
theorem bind_failure_is_fatal (nl : String → GoError) (fl : Flags) (t0 : Int)
    (ls : List Label) (e : Err) (h : nl (flagParse fl).addr = some e) :
    (((run nl fl t0 ls).mainPc = .start ∧ (run nl fl t0 ls).trace = []) ∨
      ((run nl fl t0 ls).mainPc = .fatal ∧
        (run nl fl t0 ls).trace = [.listen (flagParse fl).addr, .fatal e])) ∧
    (run nl fl t0 ls).servePc = .notStarted ∧
    (run nl fl t0 ls).watcherPc = .notStarted ∧
    (run nl fl t0 ls).errCh = [] ∧
    (run nl fl t0 ls).idleConnsClosed = false ∧
    (run nl fl t0 ls).trace.countP isListen ≤ 1 ∧
    Event.handleFunc ∉ (run nl fl t0 ls).trace ∧
    Event.makeIdleConnsClosed ∉ (run nl fl t0 ls).trace ∧
    Event.makeErrCh ∉ (run nl fl t0 ls).trace ∧
    Event.goServe ∉ (run nl fl t0 ls).trace ∧
    Event.goWatcher ∉ (run nl fl t0 ls).trace ∧
    Event.notify ∉ (run nl fl t0 ls).trace ∧
    (ls.contains .main = true → (run nl fl t0 ls).mainPc = .fatal) ∧
    ((run nl fl t0 ls).mainPc = .fatal → ∀ l, exec nl fl (run nl fl t0 ls) l = none) := by
  have hmain : ls.contains .main = true → (run nl fl t0 ls).mainPc = .fatal :=
    foldl_start nl fl e h ls (init t0) rfl
  have hg := good_run nl fl t0 ls
  generalize run nl fl t0 ls = s at hg hmain
  have hb := hg.inv.bound
  have hcases : s.mainPc = .start ∨ s.mainPc = .fatal := by
    cases hm : s.mainPc <;> simp_all [alive]
  have hfat := fun hm => exec_fatal nl fl s hm
  rcases hcases with hm | hm
  · obtain ⟨a1, a2, a3, a4, a5⟩ := hg.inv.start hm
    simp [hm, a1, a2, a3, a4, a5, hmain, hfat]
    intro hc
    have := hmain (by simpa using hc)
    simp [hm] at this
  · obtain ⟨a1, a2, a3, a4, e', a5, a6⟩ := hg.inv.fatal hm
    have he : e' = e := by simpa [h] using a5.symm
    subst he
    simp [hm, a1, a2, a3, a4, a6, hfat, isListen]

/-- C7 at `bindFailRun` with a listener that fails on every address: `main` is in
`log.Fatal` and no goroutine was started. -/
theorem bind_failure_is_fatal_witness :
    failListen (flagParse noFlags).addr = some (.other 98) ∧
    (run failListen noFlags 0 bindFailRun).mainPc = .fatal ∧
    (run failListen noFlags 0 bindFailRun).servePc = .notStarted ∧
    (run failListen noFlags 0 bindFailRun).watcherPc = .notStarted :=
  ⟨rfl, by decide,
    (bind_failure_is_fatal failListen noFlags 0 bindFailRun (.other 98) rfl).2.1,
    (bind_failure_is_fatal failListen noFlags 0 bindFailRun (.other 98) rfl).2.2.1⟩

/-! ## C8: send before close -/

/-- C8: in every run `idleConnsClosed` is closed at most once, and exactly once when the
watcher has finished; when it is closed, the trace holds in this order the receipt of a
SIGINT or SIGTERM, the call of `srv.Shutdown`, its return with a value `e`, the
watcher's send of that `e` on `errCh`, `cancel` and the close; every value the watcher
sends is the one `srv.Shutdown` returned, sent after the return, and from the point
after the return the send of any value `e` is the watcher's next step. -/
theorem close_follows_send (nl : String → GoError) (fl : Flags) (t0 : Int)
    (ls : List Label) :
    (run nl fl t0 ls).trace.countP isClose ≤ 1 ∧
    ((run nl fl t0 ls).watcherPc = .done → (run nl fl t0 ls).trace.countP isClose = 1) ∧
    ((run nl fl t0 ls).idleConnsClosed = true ↔
      Event.closeIdleConnsClosed ∈ (run nl fl t0 ls).trace) ∧
    (Event.closeIdleConnsClosed ∈ (run nl fl t0 ls).trace →
      ∃ sig t d e, isTerm sig = true ∧
        List.Sublist [Event.recvSignal sig t, Event.logShutdown sig, Event.shutdownCall d,
          Event.shutdownReturn e, Event.sendErrCh .watcher e, Event.cancel,
          Event.closeIdleConnsClosed] (run nl fl t0 ls).trace) ∧
    (∀ e, Event.sendErrCh .watcher e ∈ (run nl fl t0 ls).trace →
      List.Sublist [Event.shutdownReturn e, Event.sendErrCh .watcher e]
        (run nl fl t0 ls).trace ∧
      ∀ e', Event.shutdownReturn e' ∈ (run nl fl t0 ls).trace → e' = e) ∧
    (∀ e, (run nl fl t0 ls).watcherPc = .sending e →
      (run nl fl t0 ls).idleConnsClosed = false ∧
      ∀ s', exec nl fl (run nl fl t0 ls) .watcherSend = some s' →
        s'.watcherPc = .returning ∧ s'.idleConnsClosed = false ∧
        s'.trace = (run nl fl t0 ls).trace ++ [Event.sendErrCh .watcher e] ∧
        exec nl fl s' .watcherReturn =
          some { s' with watcherPc := .done, idleConnsClosed := true,
                         trace := s'.trace ++ [.cancel, .closeIdleConnsClosed] }) := by
  have hg := good_run nl fl t0 ls
  generalize run nl fl t0 ls = s at hg
  have hcnt := hg.cntClose
  have hclosed := hg.inv.closed
  have hmem : Event.closeIdleConnsClosed ∈ s.trace ↔ s.watcherPc = .done := by
    constructor
    · intro hm
      have hpos : 0 < s.trace.countP isClose := List.countP_pos_iff.2 ⟨_, hm, rfl⟩
      rw [hcnt] at hpos
      cases hw : s.watcherPc <;> simp_all [watcherClosed]
    · intro hw
      have hpos : 0 < s.trace.countP isClose := by simp [hcnt, hw, watcherClosed]
      obtain ⟨ev, hm, hp⟩ := List.countP_pos_iff.1 hpos
      cases ev <;> simp [isClose] at hp
      exact hm
  obtain ⟨sig, t, d, e, hsig, -, -, hsub, -, u2, u3, -, a2⟩ := hg.ordered
  refine ⟨?_, ?_, ?_, ?_, ?_, ?_⟩
  · rw [hcnt]
    cases s.watcherPc <;> simp [watcherClosed]
  · intro hw
    simp [hcnt, hw, watcherClosed]
  · rw [hmem]
    exact hclosed
  · intro hm
    have hw := hmem.1 hm
    refine ⟨sig, t, d, e, hsig, ?_⟩
    have h7 : List.Sublist ((chain sig t d e).take 7) s.trace := by
      refine List.Sublist.trans ?_ hsub
      simp [progress, hw, chain]
      split <;> simp
    simpa [chain] using h7
  · intro e' hm
    have he := u3 e' hm
    subst he
    have hpos : 0 < s.trace.countP (isSendBy .watcher) :=
      List.countP_pos_iff.2 ⟨_, hm, rfl⟩
    rw [hg.cntWatcher] at hpos
    have h5 : List.Sublist ((chain sig t d e').take 5) s.trace := by
      refine List.Sublist.trans ?_ hsub
      cases hw : s.watcherPc <;> simp_all [watcherSent, progress, chain]
      split <;> simp
    refine ⟨List.Sublist.trans ?_ h5, u2⟩
    exact List.sublist_append_right
      [Event.recvSignal sig t, Event.logShutdown sig, Event.shutdownCall d] _
  · intro e' hw
    have hc : s.idleConnsClosed = false := by
      cases hc : s.idleConnsClosed
      · rfl
      · simp [hclosed.1 hc] at hw
    refine ⟨hc, ?_⟩
    intro s' hx
    have ha : alive s = true := by
      have h1 := hg.inv.start
      have h2 := hg.inv.fatal
      have h3 := hg.inv.exited
      cases hm : s.mainPc <;> simp_all [alive]
    simp [exec, watcherStep, ha, hw] at hx
    obtain ⟨-, rfl⟩ := hx
    simp [exec, watcherStep, hc]
    simpa [alive] using ha

/-- C8 at `shutdownErrRun`: `srv.Shutdown` returned an error, the watcher sent it and
closed `idleConnsClosed` once. -/
theorem close_follows_send_witness :
    (run okListen noFlags 0 shutdownErrRun).watcherPc = .done ∧
    (run okListen noFlags 0 shutdownErrRun).trace.countP isClose = 1 ∧
    List.Sublist [Event.shutdownReturn (some (.other 3)),
      Event.sendErrCh .watcher (some (.other 3))] (run okListen noFlags 0 shutdownErrRun).trace :=
  ⟨by decide, (close_follows_send okListen noFlags 0 shutdownErrRun).2.1 (by decide),
    ((close_follows_send okListen noFlags 0 shutdownErrRun).2.2.2.2.1 (some (.other 3))
      (by decide)).1⟩

/-! ## C9: the deadline of the drain -/

/-- C9: in every run, a call of `srv.Shutdown` with deadline `d` directly follows the
receipt, at an instant `t` not before process start, of a SIGINT or SIGTERM and its log
line, and `d = t + g`, where `g` is the value of the ttl flag, 60 seconds when the flag
is absent; from the loop, the receipt of such a signal at instant `now` passes the
deadline `now + g` to `srv.Shutdown`. -/
theorem deadline_is_trigger_plus_ttl (nl : String → GoError) (fl : Flags) (t0 : Int)
    (ls : List Label) :
    (∀ d, Event.shutdownCall d ∈ (run nl fl t0 ls).trace →
      ∃ sig t, isTerm sig = true ∧ t0 ≤ t ∧ t ≤ (run nl fl t0 ls).now ∧
        [Event.recvSignal sig t, Event.logShutdown sig, Event.shutdownCall d] <:+:
          (run nl fl t0 ls).trace ∧
        d = t + fl.ttl.getD (60 * 1000000000)) ∧
    (∀ d d', Event.shutdownCall d ∈ (run nl fl t0 ls).trace →
      Event.shutdownCall d' ∈ (run nl fl t0 ls).trace → d = d') ∧
    (∀ d, (run nl fl t0 ls).watcherPc = .inShutdown d →
      Event.shutdownCall d ∈ (run nl fl t0 ls).trace) ∧
    (∀ sig, isTerm sig = true → (run nl fl t0 ls).watcherPc = .loop →
      exec nl fl (run nl fl t0 ls) (.signal sig) =
        some { run nl fl t0 ls with
          watcherPc := .inShutdown ((run nl fl t0 ls).now + fl.ttl.getD (60 * 1000000000)),
          inShutdown := true,
          trace := (run nl fl t0 ls).trace ++
            [.recvSignal sig (run nl fl t0 ls).now, .logShutdown sig,
             .shutdownCall ((run nl fl t0 ls).now + fl.ttl.getD (60 * 1000000000))] }) := by
  have hg := good_run nl fl t0 ls
  generalize run nl fl t0 ls = s at hg
  have httl : (flagParse fl).ttl = fl.ttl.getD (60 * 1000000000) := by
    simp [flagParse, Second]
  obtain ⟨sig0, t1, d0, e0, -, -, -, hsub, u1, -, -, a1, -⟩ := hg.ordered
  refine ⟨?_, ?_, ?_, ?_⟩
  · intro d hm
    obtain ⟨sig, t, h1, h2, h3, h4, h5⟩ := hg.call d hm
    exact ⟨sig, t, h1, h3, h4, h5, by rw [h2, WithTimeout, httl]⟩
  · intro d d' hm hm'
    rw [u1 d hm, u1 d' hm']
  · intro d hw
    have hd := a1 d hw
    subst hd
    have h3 : List.Sublist ((chain sig0 t1 d e0).take 3) s.trace := by
      simpa [progress, hw] using hsub
    exact h3.subset (by simp [chain])
  · intro sig hs hw
    have ha : alive s = true := by
      have h1 := hg.inv.start
      have h2 := hg.inv.fatal
      have h3 := hg.inv.exited
      have h4 := hg.inv.closed
      cases hm : s.mainPc <;> simp_all [alive]
    have hs' : sig = SIGINT ∨ sig = SIGTERM := by simpa [isTerm] using hs
    have hsb : sig ∈ subscribed := by
      rcases hs' with hx | hx <;> simp [hx, subscribed]
    simp [exec, watcherStep, ha, hw, hs', hsb, WithTimeout, httl]

/-- C9 at `lateTermRun` without a ttl flag: process start at 0, SIGTERM handled at 5,
deadline 5 + 60 seconds. -/
theorem deadline_is_trigger_plus_ttl_witness :
    Event.shutdownCall 60000000005 ∈ (run okListen noFlags 0 lateTermRun).trace ∧
    ∃ sig t, isTerm sig = true ∧ 0 ≤ t ∧ t ≤ (run okListen noFlags 0 lateTermRun).now ∧
      [Event.recvSignal sig t, Event.logShutdown sig, Event.shutdownCall 60000000005] <:+:
        (run okListen noFlags 0 lateTermRun).trace ∧
      (60000000005 : Int) = t + noFlags.ttl.getD (60 * 1000000000) :=
  ⟨by decide,
    (deadline_is_trigger_plus_ttl okListen noFlags 0 lateTermRun).1 60000000005 (by decide)⟩

/-! ## C10: no deadlock on `errCh` -/

theorem stage_step (nl : String → GoError) (fl : Flags) (t0 : Int) (s s' : State) {l : Label}
    (hi : Inv nl fl t0 s) (h : Step nl fl s l s') :
    stage s.watcherPc ≤ stage s'.watcherPc := by
  have h0 := hi.start
  cases h <;> simp_all [stage]

theorem stage_foldl (nl : String → GoError) (fl : Flags) (t0 : Int) (ls : List Label) :
    ∀ s : State, Good nl fl t0 s →
      stage s.watcherPc ≤ stage (ls.foldl (next nl fl) s).watcherPc := by
  induction ls with
  | nil => intro s _; simp
  | cons l ls ih =>
    intro s hg
    refine le_trans ?_ (ih _ (good_next nl fl t0 s l hg))
    unfold next
    cases hx : exec nl fl s l with
    | none => simp
    | some s' => simpa using stage_step nl fl t0 s s' hg.inv (exec_step nl fl s s' l hx)

/-- In a reachable state in which the watcher is at or after its send and
`idleConnsClosed` is open, the watcher or `main` can step, and `rank` counts their
remaining steps. -/
theorem progress_of_sending (nl : String → GoError) (fl : Flags) (t0 : Int) (s : State)
    (hg : Good nl fl t0 s) (hst : 4 ≤ stage s.watcherPc) (hc : s.idleConnsClosed = false) :
    ((exec nl fl s .watcherSend).isSome = true ∨ (exec nl fl s .watcherReturn).isSome = true ∨
      (exec nl fl s .main).isSome = true) ∧
    rank s ≤ 3 ∧
    ∀ l s', exec nl fl s l = some s' → rank s' ≤ rank s ∧
      (l = .main ∨ l = .watcherSend ∨ l = .watcherReturn → rank s' < rank s) := by
  have hnd : s.watcherPc ≠ .done := fun hd => by simp [hg.inv.closed.2 hd] at hc
  have hns : s.watcherPc ≠ .notStarted := fun hd => by simp [hd, stage] at hst
  have ha := alive_of_watcher nl fl t0 s hg hns hnd
  have hchan := hg.inv.chan
  have hcap := hg.inv.cap
  have hstart := hg.inv.start
  refine ⟨?_, ?_, ?_⟩
  · cases hw : s.watcherPc <;> simp [hw, stage] at hst hnd
    case sending e =>
      cases hch : s.errCh with
      | nil => left; simp [exec, watcherStep, ha, hw, hch, errChCap]
      | cons x rest =>
        right; right
        have hss : serveSent s.servePc ≤ 1 := by cases s.servePc <;> simp [serveSent]
        have hws : watcherSent s.watcherPc = 0 := by simp [hw, watcherSent]
        have hlen : s.errCh.length = rest.length + 1 := by simp [hch]
        have hm : s.mainPc = .recvErrCh := by
          cases hm : s.mainPc
          case recvErrCh => rfl
          case start => simp [hstart hm] at hw
          case fatal => simp [alive, hm] at ha
          case waitIdleConnsClosed => simp [hm, mainReceived] at hchan; omega
          case exited => simp [hm, mainReceived] at hchan; omega
        simp [exec, mainStep, hm, hch]
    case returning =>
      right; left; simp [exec, watcherStep, ha, hw]
  · cases hw : s.watcherPc <;> simp [rank, hw] <;> split <;> simp
  · intro l s' hx
    have hs := exec_step nl fl s s' l hx
    cases hs <;> simp_all [rank, stage, alive]

/-- C10: in every run in which the watcher is at its send on `errCh` (line 58, after
`srv.Shutdown` returned): the buffer holds at most one value; when it is full, `main`
has not received yet, its receive is enabled and enables the send; when it is not full
the send is enabled; the schedule "main, watcher send, watcher return" closes
`idleConnsClosed`; and in every continuation of the run in which `idleConnsClosed` is
still open, the watcher or `main` can step, no step raises `rank`, and every step of
the watcher or `main` lowers it. -/
theorem errCh_no_deadlock (nl : String → GoError) (fl : Flags) (t0 : Int)
    (ls : List Label) (e : GoError) (hw : (run nl fl t0 ls).watcherPc = .sending e) :
    (run nl fl t0 ls).errCh.length ≤ errChCap ∧
    ((run nl fl t0 ls).errCh.length = errChCap →
      (run nl fl t0 ls).mainPc = .recvErrCh ∧
      ∃ s1, exec nl fl (run nl fl t0 ls) .main = some s1 ∧
        (exec nl fl s1 .watcherSend).isSome = true) ∧
    ((run nl fl t0 ls).errCh.length < errChCap →
      (exec nl fl (run nl fl t0 ls) .watcherSend).isSome = true) ∧
    (run nl fl t0 (ls ++ [.main, .watcherSend, .watcherReturn])).idleConnsClosed = true ∧
    (∀ ls', (run nl fl t0 (ls ++ ls')).idleConnsClosed = false →
      ((exec nl fl (run nl fl t0 (ls ++ ls')) .watcherSend).isSome = true ∨
        (exec nl fl (run nl fl t0 (ls ++ ls')) .watcherReturn).isSome = true ∨
        (exec nl fl (run nl fl t0 (ls ++ ls')) .main).isSome = true) ∧
      rank (run nl fl t0 (ls ++ ls')) ≤ 3 ∧
      ∀ l s', exec nl fl (run nl fl t0 (ls ++ ls')) l = some s' →
        rank s' ≤ rank (run nl fl t0 (ls ++ ls')) ∧
        (l = .main ∨ l = .watcherSend ∨ l = .watcherReturn →
          rank s' < rank (run nl fl t0 (ls ++ ls')))) := by
  have hcont : ∀ ls', (run nl fl t0 (ls ++ ls')).idleConnsClosed = false →
      Good nl fl t0 (run nl fl t0 (ls ++ ls')) ∧
      4 ≤ stage (run nl fl t0 (ls ++ ls')).watcherPc := by
    intro ls' _
    refine ⟨good_run nl fl t0 _, ?_⟩
    rw [run_append]
    refine le_trans ?_ (stage_foldl nl fl t0 ls' _ (good_run nl fl t0 ls))
    simp [hw, stage]
  have hlast := fun ls' hc =>
    progress_of_sending nl fl t0 _ (hcont ls' hc).1 (hcont ls' hc).2 hc
  have hfour : (run nl fl t0 (ls ++ [.main, .watcherSend, .watcherReturn])).idleConnsClosed
      = true := by
    rw [run_append]
    have hg := good_run nl fl t0 ls
    generalize run nl fl t0 ls = s at hg hw
    have ha := alive_of_watcher nl fl t0 s hg (by simp [hw]) (by simp [hw])
    have hchan := hg.inv.chan
    have hcap := hg.inv.cap
    have hcl : s.idleConnsClosed = false := by
      cases hc : s.idleConnsClosed
      · rfl
      · simp [hg.inv.closed.1 hc] at hw
    have hss : serveSent s.servePc ≤ 1 := by cases s.servePc <;> simp [serveSent]
    have hws : watcherSent s.watcherPc = 0 := by simp [hw, watcherSent]
    have hm : s.mainPc = .recvErrCh ∨ s.mainPc = .waitIdleConnsClosed := by
      simpa [alive] using ha
    cases hch : s.errCh with
    | nil =>
      rcases hm with hm | hm <;>
        simp [next, exec, mainStep, watcherStep, hm, hch, hcl, hw, alive, errChCap]
    | cons x rest =>
      have hrest : rest = [] := by
        cases rest with
        | nil => rfl
        | cons y ys => simp [hch, errChCap] at hcap
      subst hrest
      rcases hm with hm | hm
      · simp [next, exec, mainStep, watcherStep, hm, hch, hcl, hw, alive, errChCap]
      · simp [hm, hch, mainReceived] at hchan
        omega
  refine ⟨(good_run nl fl t0 ls).inv.cap, ?_, ?_, hfour, hlast⟩
  · intro hfull
    have hg := good_run nl fl t0 ls
    generalize run nl fl t0 ls = s at hg hw hfull
    have ha := alive_of_watcher nl fl t0 s hg (by simp [hw]) (by simp [hw])
    have hchan := hg.inv.chan
    have hstart := hg.inv.start
    have hss : serveSent s.servePc ≤ 1 := by cases s.servePc <;> simp [serveSent]
    have hws : watcherSent s.watcherPc = 0 := by simp [hw, watcherSent]
    have hm : s.mainPc = .recvErrCh := by
      cases hm : s.mainPc
      case recvErrCh => rfl
      case start => simp [hstart hm] at hw
      case fatal => simp [alive, hm] at ha
      case waitIdleConnsClosed => simp [hm, mainReceived, errChCap] at hchan hfull; omega
      case exited => simp [hm, mainReceived, errChCap] at hchan hfull; omega
    refine ⟨hm, ?_⟩
    cases hch : s.errCh with
    | nil => simp [hch, errChCap] at hfull
    | cons x rest =>
      have hrest : rest = [] := by
        cases rest with
        | nil => rfl
        | cons y ys => simp [hch, errChCap] at hfull
      subst hrest
      simp [exec, mainStep, watcherStep, hm, hch, hw, alive, errChCap]
  · intro hlt
    have hg := good_run nl fl t0 ls
    generalize run nl fl t0 ls = s at hg hw hlt
    have ha := alive_of_watcher nl fl t0 s hg (by simp [hw]) (by simp [hw])
    simp [exec, watcherStep, ha, hw, hlt]

/-- C10 at `fullBufferRun`: the serve goroutine has filled the buffer, the watcher is
blocked at its send, and after `main`'s receive the watcher sends and closes. -/
theorem errCh_no_deadlock_witness :
    (run okListen noFlags 0 fullBufferRun).watcherPc = .sending none ∧
    (run okListen noFlags 0 fullBufferRun).errCh = [some .ErrServerClosed] ∧
    exec okListen noFlags (run okListen noFlags 0 fullBufferRun) .watcherSend = none ∧
    (run okListen noFlags 0
      (fullBufferRun ++ [.main, .watcherSend, .watcherReturn])).idleConnsClosed = true :=
  ⟨by decide, by decide, by decide,
    (errCh_no_deadlock okListen noFlags 0 fullBufferRun none (by decide)).2.2.2.1⟩

end Webserver
